import Mathlib

set_option maxRecDepth 100000

/-!
Verification development for the symbolserver repository.

The definitions below are a shallow embedding of the Rust sources:
`src/sdk.rs`, `src/dsym.rs` and `src/memdb/read.rs`.  Machine integers
are modelled as `Nat` with explicit `% 2^w` where overflow matters;
fallible code returns `Except`/`Option`.  Byte buffers are `List Nat`
(each element one byte).  Strings that the Rust code compares as UTF-8
`&str` values are modelled by their UTF-8 byte lists, so string equality
coincides with byte-list equality.

Files of the repository that are not part of the provided sources
(`errors.rs`, `utils.rs`, `memdbtypes.rs`) are modelled from the spec;
each such definition carries a doc comment starting with
`Modelled from the spec:`.
-/

/- ---------------------------------------------------------------- -/
/- § SDK descriptor: src/sdk.rs                                      -/
/- ---------------------------------------------------------------- -/

/-- Character class of `\d` in the SDK filename pattern of
`src/sdk.rs` (`SDK_FILENAME_RE`), restricted to ASCII decimal digits
(the only digits that the subsequent `parse::<u32>()` accepts). -/
def isDigitCh (c : Char) : Bool :=
  '0' ≤ c && c ≤ '9'

/-- Character class of `\s` in the SDK filename pattern, the ASCII
whitespace characters. -/
def isSpaceCh (c : Char) : Bool :=
  c = ' ' || c = '\t' || c = '\n' || c = '\x0d' || c = '\x0b' || c = '\x0c'

/-- Character class of `[a-zA-Z0-9]` (the BUILD capture group). -/
def isAlnumCh (c : Char) : Bool :=
  ('0' ≤ c && c ≤ '9') || ('a' ≤ c && c ≤ 'z') || ('A' ≤ c && c ≤ 'Z')

/-- Longest run of characters satisfying `p` at the head of the list,
together with the remainder. -/
def takeClass (p : Char → Bool) : List Char → List Char × List Char
  | [] => ([], [])
  | c :: rest =>
    if p c then
      let (d, r) := takeClass p rest
      (c :: d, r)
    else ([], c :: rest)

/-- Captures of `SDK_FILENAME_RE` from `src/sdk.rs`:
`^(\d+)\.(\d+)(?:\.(\d+))?\s+\(([a-zA-Z0-9]+)\)(?:\.zip)?$`. -/
structure SdkCaps where
  major : List Char
  minor : List Char
  patch : Option (List Char)
  build : List Char
deriving DecidableEq, Repr

/-- Matcher for `SDK_FILENAME_RE` (src/sdk.rs lines 70-77).  The regex
is anchored and deterministic on every input (each quantified class is
followed by a character outside the class), so a straight-line parser
is an exact embedding. -/
def matchSdkFilename (s : List Char) : Option SdkCaps :=
  let (maj, r1) := takeClass isDigitCh s
  if maj.isEmpty then none else
  match r1 with
  | '.' :: r2 =>
    let (minr, r3) := takeClass isDigitCh r2
    if minr.isEmpty then none else
    -- the optional `(?:\.(\d+))?` group
    let pr : Option (List Char) × List Char :=
      match r3 with
      | '.' :: r4 =>
        let (p, r5) := takeClass isDigitCh r4
        if p.isEmpty then (none, r3) else (some p, r5)
      | _ => (none, r3)
    let patch := pr.1
    let (sp, r6) := takeClass isSpaceCh pr.2
    if sp.isEmpty then none else
    match r6 with
    | '(' :: r7 =>
      let (bld, r8) := takeClass isAlnumCh r7
      if bld.isEmpty then none else
      match r8 with
      | ')' :: r9 =>
        -- the optional `(?:\.zip)?` and the `$` anchor
        match r9 with
        | [] => some ⟨maj, minr, patch, bld⟩
        | ['.', 'z', 'i', 'p'] => some ⟨maj, minr, patch, bld⟩
        | _ => none
      | _ => none
    | _ => none
  | _ => none

/-- Numeric value of a run of decimal digit characters. -/
def digitsToNat (l : List Char) : Nat :=
  l.foldl (fun acc c => acc * 10 + (c.toNat - '0'.toNat)) 0

/-- Embedding of Rust `str::parse::<u32>` on a captured digit run:
fails on overflow past `u32::MAX`. -/
def parseU32 (l : List Char) : Option Nat :=
  if l.isEmpty then none
  else if digitsToNat l < 2 ^ 32 then some (digitsToNat l) else none

/-- `get_sdk_name_from_folder` from src/sdk.rs lines 26-32. -/
def get_sdk_name_from_folder (folder : String) : Option String :=
  if folder = "iOS DeviceSupport" then some "iOS"
  else if folder = "tvOS DeviceSupport" then some "tvOS"
  else none

/-- `SdkInfo` from src/sdk.rs lines 36-50. -/
structure SdkInfo where
  name : String
  version_major : Nat
  version_minor : Nat
  version_patchlevel : Nat
  build : String
  flavour : Option String
deriving DecidableEq, Repr

/-- `SdkInfo::from_path` from src/sdk.rs lines 68-92.  A filesystem
path is modelled by its list of components; the Rust code uses the
final component as the file name and the one before it as the parent
folder name. -/
def SdkInfo.from_path (components : List String) : Option SdkInfo :=
  match components.reverse with
  | filename :: folder :: _ => do
    let caps ← matchSdkFilename filename.data
    let name ← get_sdk_name_from_folder folder
    let major ← parseU32 caps.major
    let minor ← parseU32 caps.minor
    let patchlevel ← parseU32 (caps.patch.getD ['0'])
    some { name := name
           version_major := major
           version_minor := minor
           version_patchlevel := patchlevel
           build := String.mk caps.build
           flavour := none }
  | _ => none

/- ---------------------------------------------------------------- -/
/- § Error taxonomy: errors.rs (not in src/)                         -/
/- ---------------------------------------------------------------- -/

/-- Errors of the external mach_object crate as classified by
`ObjectsIter::next` (src/sdk.rs lines 148-151): a load error means the
input was rejected as not a Mach-O; everything else is some other
Mach-O parse failure. -/
inductive MachErr where
  | loadError (msg : String)
  | otherErr (msg : String)
deriving DecidableEq, Repr

/-- Modelled from the spec: the error taxonomy of §7 (errors.rs is not
in src/).  `BadMemDb` covers offsets/lengths that exceed file bounds
and strings that are not UTF-8.  Two extra constructors model abnormal
terminations of the Rust code that are not error values at all:
`panicked` models a Rust panic (out-of-range slice indexing, the
compressed-string `panic!` in `get_string`), and `oobRead` models an
unchecked read outside the backing byte region (undefined behaviour in
the source). -/
inductive ErrorKind where
  | UnknownSdk
  | UnknownArchitecture (arch : String)
  | MissingArchitecture (arch : String)
  | MachO (e : MachErr)
  | UnsupportedMemDbVersion
  | BadMemDb
  | ioError (msg : String)
  | zipError (msg : String)
  | walkDirError (msg : String)
  | panicked (msg : String)
  | oobRead
deriving DecidableEq, Repr

/- ---------------------------------------------------------------- -/
/- § Object reader: src/dsym.rs                                      -/
/- ---------------------------------------------------------------- -/

/-- `SEG_TEXT` from the external mach_object crate (Apple loader.h:
the text segment is named `__TEXT`). -/
def SEG_TEXT : String := "__TEXT"

/-- `SECT_TEXT` from the external mach_object crate (Apple loader.h:
the text section inside `__TEXT` is named `__text`, lowercase). -/
def SECT_TEXT : String := "__text"

/-- The fields of a mach_object `Section` inspected by
`SymbolIterator::next` (src/dsym.rs line 60). -/
structure MachSection where
  sectname : String
  segname : String
deriving DecidableEq, Repr

/-- The mach_object `Symbol` enum as consumed by `SymbolIterator::next`
(src/dsym.rs lines 56-66).  Only the `Defined` arm is inspected field
by field; all other arms (`Undefined`, `Absolute`, `Prebound`,
`Indirect`, `Debug`) are never yielded, so they are collapsed keeping
the fields relevant to the claims. -/
inductive MachSymbol where
  | Defined (name : Option String) (external : Bool)
            (sect : Option MachSection) (entry : Nat)
  | Undefined (name : Option String) (external : Bool)
  | OtherSym
deriving DecidableEq, Repr

/-- One step of `SymbolIterator::next` (src/dsym.rs lines 54-69): the
yielded pair for a symbol that passes every filter, `none` for a
symbol that the loop skips. -/
def symbolIteratorStep : MachSymbol → Option (Nat × String)
  | MachSymbol.Defined name external sect entry =>
    if external then none
    else
      match name, sect with
      | some n, some s =>
        if s.segname = SEG_TEXT && s.sectname = SECT_TEXT then
          some (entry, n)
        else none
      | _, _ => none
  | _ => none

/-- The full output of `SymbolIterator` over the nlist entries of the
matched variant: the while-let loop yields, in order, exactly the
symbols on which `symbolIteratorStep` fires. -/
def symbolsIter (syms : List MachSymbol) : List (Nat × String) :=
  syms.filterMap symbolIteratorStep

/-- One child header of a FAT container as used by `Object::symbols`
(src/dsym.rs lines 185-194): CPU type/subtype and the child's absolute
offset into the backing region. -/
structure FatArch where
  cputype : Int
  cpusubtype : Int
  offset : Nat
deriving DecidableEq, Repr

/-- The mach_object `OFile` shape as consumed by src/dsym.rs: a FAT
container with children, a single Mach-O file with its header's CPU
type/subtype, or anything else. -/
inductive OFileM where
  | fatFile (files : List (FatArch × Unit))
  | machFile (cputype cpusubtype : Int)
  | other
deriving DecidableEq, Repr

/-- Result of `Object::symbols`: which symbol source was selected (the
child index inside a FAT file, or the sole Mach-O) and the cursor
offset into the backing region. -/
structure SymbolsM where
  fatChild : Option FatArch
  cursorOffset : Nat
deriving DecidableEq, Repr

/-- The architecture flag table of the external mach_object crate's
`get_arch_from_flag`, with the (cputype, cpusubtype) values of Apple's
machine.h for the flags the SDK bundles use. -/
def archFlagTable : List (String × Int × Int) :=
  [("armv7", 12, 9), ("armv7s", 12, 11), ("arm64", 16777228, 0),
   ("i386", 7, 3), ("x86_64", 16777223, 3)]

/-- `get_arch_from_flag` of the external mach_object crate: resolve an
architecture flag string to a (cputype, cpusubtype) pair. -/
def get_arch_from_flag (arch : String) : Option (Int × Int) :=
  (archFlagTable.find? (fun e => e.1 = arch)).map (fun e => e.2)

/-- `Object::symbols` from src/dsym.rs lines 179-207: resolve the flag
(`UnknownArchitecture` when absent from the table); then select the
first FAT child whose header matches both the cputype and cpusubtype,
or the sole Mach-O header when it matches; `MissingArchitecture`
otherwise. -/
def Object.symbols (ofile : OFileM) (arch : String) : Except ErrorKind SymbolsM :=
  match get_arch_from_flag arch with
  | none => Except.error (ErrorKind.UnknownArchitecture arch)
  | some (cputype, cpusubtype) =>
    match ofile with
    | OFileM.fatFile files =>
      match files.find? (fun fc => fc.1.cputype = cputype && fc.1.cpusubtype = cpusubtype) with
      | some fc => Except.ok ⟨some fc.1, fc.1.offset⟩
      | none => Except.error (ErrorKind.MissingArchitecture arch)
    | OFileM.machFile cput cpust =>
      if cput = cputype && cpust = cpusubtype then
        Except.ok ⟨none, 0⟩
      else Except.error (ErrorKind.MissingArchitecture arch)
    | OFileM.other => Except.error (ErrorKind.MissingArchitecture arch)

/-- The condition of the claim: some variant of the object (a FAT
child header or the single Mach-O header) carries the requested
(cputype, cpusubtype) pair. -/
def hasArchVariant (ofile : OFileM) (cputype cpusubtype : Int) : Bool :=
  match ofile with
  | OFileM.fatFile files =>
    files.any (fun fc => fc.1.cputype = cputype && fc.1.cpusubtype = cpusubtype)
  | OFileM.machFile cput cpust => cput = cputype && cpust = cpusubtype
  | OFileM.other => false

/- ---------------------------------------------------------------- -/
/- § Bundle walker: src/sdk.rs (ObjectsIter)                         -/
/- ---------------------------------------------------------------- -/

/-- Leading run of an archive member name up to (excluding) the first
slash, mirroring the first item of Rust `splitn(n, '/')`. -/
def takeToSlash : List Char → List Char
  | [] => []
  | c :: r => if c = '/' then [] else c :: takeToSlash r

/-- The remainder of an archive member name after its first slash;
`none` when it holds no slash (then Rust `splitn` yields no further
item). -/
def dropPastSlash : List Char → Option (List Char)
  | [] => none
  | c :: r => if c = '/' then some r else dropPastSlash r

/-- `strip_archive_file_prefix` from src/sdk.rs lines 114-135 (the
final token of the Rust name is shortened to `pfx` here): strip a
leading `Symbols/` component, or a leading `<anything>/Symbols/`
pair of components, from an archive member name; otherwise return the
name unchanged. -/
def strip_archive_file_pfx (s : String) : String :=
  let l := s.data
  if takeToSlash l = "Symbols".data then
    match dropPastSlash l with
    | some rest => String.mk rest
    | none => stripSecondForm l s
  else stripSecondForm l s
where
  /-- The `Foo/Symbols/foo/bar` form handled by the second block of
  the Rust function. -/
  stripSecondForm (l : List Char) (s : String) : String :=
    match dropPastSlash l with
    | some l2 =>
      if takeToSlash l2 = "Symbols".data then
        match dropPastSlash l2 with
        | some rest => String.mk rest
        | none => s
      else s
    | none => s

/-- The test applied by the `try_return_obj!` macro (src/sdk.rs lines
148-151): is this error a Mach-O load error (the inner parser rejected
the input as not a Mach-O)? -/
def isMachLoadError : ErrorKind → Bool
  | ErrorKind.MachO (MachErr.loadError _) => true
  | _ => false

/-- One member of a zip archive as seen by `ObjectsIter::next`
(src/sdk.rs lines 161-172): its stored name, the outcome of
`by_index` plus `read_to_end` (the member bytes, or the first error of
either call), and the outcome that `Object::from_vec` has on those
bytes. -/
structure ZipEntryM where
  name : String
  readResult : Except ErrorKind (List Nat)
  parseResult : Except ErrorKind OFileM
deriving Repr

/-- One directory entry as seen by `ObjectsIter::next` (src/sdk.rs
lines 173-186): the walkdir entry outcome, the metadata outcome as an
(is_file, len) pair, the path relative to the `Symbols` base, and the
outcome that `Object::from_path` has on the file. -/
structure DirEntryM where
  relPath : String
  entryResult : Except ErrorKind Unit
  metadataResult : Except ErrorKind (Bool × Nat)
  parseResult : Except ErrorKind OFileM
deriving Repr

/-- `ObjectsIter::next` over a zip source (src/sdk.rs lines 159-172),
as a function of the remaining members: the next yielded item, or
`none` when the archive is exhausted.  Members whose read fails yield
the error; empty members are skipped without being parsed; a parse
failure that is a Mach-O load error is silently skipped; any other
parse failure yields the error; a parsed object is yielded under its
stripped name. -/
def zipNext : List ZipEntryM → Option (Except ErrorKind (String × OFileM))
  | [] => none
  | e :: rest =>
    match e.readResult with
    | Except.error k => some (Except.error k)
    | Except.ok buf =>
      if buf.length > 0 then
        match e.parseResult with
        | Except.ok obj => some (Except.ok (strip_archive_file_pfx e.name, obj))
        | Except.error k =>
          if isMachLoadError k then zipNext rest
          else some (Except.error k)
      else zipNext rest

/-- `ObjectsIter::next` over a directory source (src/sdk.rs lines
173-186), as a function of the remaining walkdir entries. -/
def dirNext : List DirEntryM → Option (Except ErrorKind (String × OFileM))
  | [] => none
  | e :: rest =>
    match e.entryResult with
    | Except.error k => some (Except.error k)
    | Except.ok _ =>
      match e.metadataResult with
      | Except.error k => some (Except.error k)
      | Except.ok md =>
        if md.1 && md.2 > 0 then
          match e.parseResult with
          | Except.ok obj => some (Except.ok (e.relPath, obj))
          | Except.error k =>
            if isMachLoadError k then dirNext rest
            else some (Except.error k)
        else dirNext rest

/- ---------------------------------------------------------------- -/
/- § Memdb reader: src/memdb/read.rs (+ memdbtypes.rs, utils.rs)     -/
/- ---------------------------------------------------------------- -/

/-- Modulus of `usize` arithmetic (the target is 64-bit). -/
def U64MOD : Nat := 2 ^ 64

/-- `Backing::get_data` from src/memdb/read.rs lines 74-82: compute
`end = start.wrapping_add(len)`; reject with `BadMemDb` when the sum
wrapped around or `end` exceeds the buffer length; otherwise return
the byte slice `buffer[start..end]`. -/
def getData (buffer : List Nat) (start len : Nat) : Except ErrorKind (List Nat) :=
  if (start + len) % U64MOD < start || (start + len) % U64MOD > buffer.length then
    Except.error ErrorKind.BadMemDb
  else Except.ok ((buffer.drop start).take ((start + len) % U64MOD - start))

/-- Little-endian value of a byte list. -/
def leNat (l : List Nat) : Nat :=
  l.foldr (fun b acc => b + 256 * acc) 0

/-- Big-endian value of a byte list.  The raw 16 UUID bytes are folded
big-endian so that the numeric order on the folded value coincides
with the byte-lexicographic `Ord` of the Rust `Uuid` type. -/
def beNat (l : List Nat) : Nat :=
  l.foldl (fun acc b => acc * 256 + b) 0

/-- Little-endian `u32` read at byte offset `o` of `l`. -/
def u32At (l : List Nat) (o : Nat) : Nat :=
  leNat ((l.drop o).take 4)

/-- Modelled from the spec: `MemDbHeader` (memdbtypes.rs is not in
src/).  Per §3 the header holds magic/version, the SdkInfo fields, a
(start, count) pair for each of the UUID, variant, symbol and
object-name tables, and (start, end) for the tagged-name region.  The
field names are the ones src/memdb/read.rs dereferences. -/
structure MemDbHeader where
  version : Nat
  sdk_info : List Nat
  uuids_start : Nat
  uuids_count : Nat
  variants_start : Nat
  variants_count : Nat
  symbols_start : Nat
  symbols_count : Nat
  object_names_start : Nat
  object_names_count : Nat
  tagged_object_names_start : Nat
  tagged_object_names_end : Nat
deriving DecidableEq, Repr

/-- Modelled from the spec: the packed byte size of `MemDbHeader`
(version `u32`, 20 bytes of packed SdkInfo, ten `u32` offset/count
fields). -/
def HEADER_SIZE : Nat := 64

/-- Modelled from the spec: field layout of the packed header — the
version word first, then the packed SdkInfo, then the little-endian
`u32` table descriptors (§4.F: all fields little-endian, offsets
absolute, counts element counts). -/
def decodeHeader (h : List Nat) : MemDbHeader :=
  { version := u32At h 0
    sdk_info := (h.drop 4).take 20
    uuids_start := u32At h 24
    uuids_count := u32At h 28
    variants_start := u32At h 32
    variants_count := u32At h 36
    symbols_start := u32At h 40
    symbols_count := u32At h 44
    object_names_start := u32At h 48
    object_names_count := u32At h 52
    tagged_object_names_start := u32At h 56
    tagged_object_names_end := u32At h 60 }

/-- `Backing::header` from src/memdb/read.rs lines 95-99: the first
`HEADER_SIZE` bytes of the region, bounds-checked by `get_data`,
viewed as a header. -/
def readHeader (buffer : List Nat) : Except ErrorKind MemDbHeader :=
  (getData buffer 0 HEADER_SIZE).map decodeHeader

/-- `MemDb` from src/memdb/read.rs lines 30-33: the backing byte
region plus the SdkInfo lifted from the header (kept as its packed
bytes; no lookup reads it). -/
structure MemDb where
  info : List Nat
  buffer : List Nat
deriving DecidableEq, Repr

/-- `load_memdb` from src/memdb/read.rs lines 133-145: read the
header (`BadMemDb` when the region is shorter than a header), reject
any version other than 1 with `UnsupportedMemDbVersion`, then wrap
the backing. -/
def load_memdb (buffer : List Nat) : Except ErrorKind MemDb :=
  match readHeader buffer with
  | Except.error k => Except.error k
  | Except.ok h =>
    if h.version ≠ 1 then Except.error ErrorKind.UnsupportedMemDbVersion
    else Except.ok ⟨h.sdk_info, buffer⟩

/-- `MemDb::from_slice` / `from_vec` / `from_cow` (src/memdb/read.rs
lines 150-162) all wrap the same bytes in a `Backing::Buf` and call
`load_memdb`. -/
def MemDb.from_slice (buffer : List Nat) : Except ErrorKind MemDb :=
  load_memdb buffer

/-- Modelled from the spec: `IndexedUuid` (§4.F): a 16-byte UUID
followed by a 32-bit little-endian variant index.  The UUID is kept as
its 128-bit big-endian value, which orders exactly like the raw byte
string. -/
structure IndexedUuid where
  uuid : Nat
  idx : Nat
deriving DecidableEq, Repr

/-- Modelled from the spec: byte width of `IndexedUuid` (16 + 4). -/
def INDEXED_UUID_SIZE : Nat := 20

/-- Decode one `IndexedUuid` record from the bytes starting at its
position. -/
def decodeIndexedUuid (l : List Nat) : IndexedUuid :=
  ⟨beNat (l.take 16), leNat ((l.drop 16).take 4)⟩

/-- Modelled from the spec: `StoredSlice` (§4.F): offset in the low 40
bits, length in the next 23 bits, compressed flag in the top bit,
little-endian packed into 8 bytes. -/
structure StoredSlice where
  raw : Nat
deriving DecidableEq, Repr

def StoredSlice.offset (s : StoredSlice) : Nat := s.raw % 2 ^ 40

def StoredSlice.len (s : StoredSlice) : Nat := s.raw / 2 ^ 40 % 2 ^ 23

def StoredSlice.is_compressed (s : StoredSlice) : Bool := s.raw / 2 ^ 63 % 2 = 1

/-- Modelled from the spec: `IndexItem` (§4.F): address in the low 40
bits, symbol id in the next 24, source object id in the next 24,
little-endian packed into 11 bytes. -/
structure IndexItem where
  raw : Nat
deriving DecidableEq, Repr

def INDEX_ITEM_SIZE : Nat := 11

def IndexItem.addr (i : IndexItem) : Nat := i.raw % 2 ^ 40

def IndexItem.sym_id (i : IndexItem) : Nat := i.raw / 2 ^ 40 % 2 ^ 24

def IndexItem.src_id (i : IndexItem) : Nat := i.raw / 2 ^ 64 % 2 ^ 24

/-- `MemDb::uuids` from src/memdb/read.rs lines 260-263: the UUID
table, `get_slice`-checked against the region bounds, as
`uuids_count` consecutive `IndexedUuid` records. -/
def MemDb.uuids (db : MemDb) : Except ErrorKind (List IndexedUuid) :=
  match readHeader db.buffer with
  | Except.error k => Except.error k
  | Except.ok h =>
    match getData db.buffer h.uuids_start (h.uuids_count * INDEXED_UUID_SIZE) with
    | Except.error k => Except.error k
    | Except.ok data =>
      Except.ok ((List.range h.uuids_count).map
        (fun i => decodeIndexedUuid (data.drop (i * INDEXED_UUID_SIZE))))

/-- `MemDb::variants` from src/memdb/read.rs lines 266-269. -/
def MemDb.variants (db : MemDb) : Except ErrorKind (List StoredSlice) :=
  match readHeader db.buffer with
  | Except.error k => Except.error k
  | Except.ok h =>
    match getData db.buffer h.variants_start (h.variants_count * 8) with
    | Except.error k => Except.error k
    | Except.ok data =>
      Except.ok ((List.range h.variants_count).map
        (fun i => StoredSlice.mk (leNat ((data.drop (i * 8)).take 8))))

/-- `MemDb::symbols` from src/memdb/read.rs lines 290-293. -/
def MemDb.symbolSlices (db : MemDb) : Except ErrorKind (List StoredSlice) :=
  match readHeader db.buffer with
  | Except.error k => Except.error k
  | Except.ok h =>
    match getData db.buffer h.symbols_start (h.symbols_count * 8) with
    | Except.error k => Except.error k
    | Except.ok data =>
      Except.ok ((List.range h.symbols_count).map
        (fun i => StoredSlice.mk (leNat ((data.drop (i * 8)).take 8))))

/-- `MemDb::object_names` from src/memdb/read.rs lines 296-300. -/
def MemDb.object_names (db : MemDb) : Except ErrorKind (List StoredSlice) :=
  match readHeader db.buffer with
  | Except.error k => Except.error k
  | Except.ok h =>
    match getData db.buffer h.object_names_start (h.object_names_count * 8) with
    | Except.error k => Except.error k
    | Except.ok data =>
      Except.ok ((List.range h.object_names_count).map
        (fun i => StoredSlice.mk (leNat ((data.drop (i * 8)).take 8))))

/-- Modelled from the spec: the exact-match binary search of utils.rs
(`binsearch_by_key`, not in src/): keyed on a total order, narrowing
[lo, hi) around the key, returning an element whose key compares
equal.  Fuel-based; the interval shrinks at every step, so
`l.length + 1` fuel always suffices. -/
def binsearchAux {α : Type} (l : List α) (key : Nat) (f : α → Nat) :
    Nat → Nat → Nat → Option α
  | 0, _, _ => none
  | fuel + 1, lo, hi =>
    if lo < hi then
      match l.get? ((lo + hi) / 2) with
      | none => none
      | some x =>
        if key < f x then binsearchAux l key f fuel lo ((lo + hi) / 2)
        else if f x < key then binsearchAux l key f fuel ((lo + hi) / 2 + 1) hi
        else some x
    else none

/-- Modelled from the spec: `binsearch_by_key` over the whole list. -/
def binsearch_by_key {α : Type} (l : List α) (key : Nat) (f : α → Nat) : Option α :=
  binsearchAux l key f (l.length + 1) 0 l.length

/-- `MemDb::get_index` from src/memdb/read.rs lines 272-287:
binary-search the UUID table; on a hit, index the variant table
(a Rust panic when the stored variant index is out of range), fetch
the variant's index-item byte slice bounds-checked, and view it as
`len / size_of::<IndexItem>()` packed items. -/
def MemDb.get_index (db : MemDb) (uuid : Nat) :
    Except ErrorKind (Option (List IndexItem)) :=
  match db.uuids with
  | Except.error k => Except.error k
  | Except.ok uuids =>
    match binsearch_by_key uuids uuid IndexedUuid.uuid with
    | none => Except.ok none
    | some iuuid =>
      match db.variants with
      | Except.error k => Except.error k
      | Except.ok variants =>
        if hlt : iuuid.idx < variants.length then
          match getData db.buffer (variants.get ⟨iuuid.idx, hlt⟩).offset
              (variants.get ⟨iuuid.idx, hlt⟩).len with
          | Except.error k => Except.error k
          | Except.ok data =>
            Except.ok (some ((List.range ((variants.get ⟨iuuid.idx, hlt⟩).len / INDEX_ITEM_SIZE)).map
              (fun i => IndexItem.mk (leNat ((data.drop (i * INDEX_ITEM_SIZE)).take INDEX_ITEM_SIZE)))))
        else Except.error (ErrorKind.panicked "index out of bounds")

/-- Is `b` a UTF-8 continuation byte (`0x80..=0xBF`)? -/
def isCont (b : Nat) : Bool := 128 ≤ b && b ≤ 191

/-- Embedding of Rust `str::from_utf8` validity: well-formed UTF-8
with the standard exclusions (overlong forms, surrogates, values past
U+10FFFF). -/
def isValidUtf8 : List Nat → Bool
  | [] => true
  | b :: rest =>
    if b ≤ 127 then isValidUtf8 rest
    else if 194 ≤ b && b ≤ 223 then
      match rest with
      | b2 :: r => isCont b2 && isValidUtf8 r
      | [] => false
    else if b = 224 then
      match rest with
      | b2 :: b3 :: r => (160 ≤ b2 && b2 ≤ 191) && isCont b3 && isValidUtf8 r
      | _ => false
    else if (225 ≤ b && b ≤ 236) || b = 238 || b = 239 then
      match rest with
      | b2 :: b3 :: r => isCont b2 && isCont b3 && isValidUtf8 r
      | _ => false
    else if b = 237 then
      match rest with
      | b2 :: b3 :: r => (128 ≤ b2 && b2 ≤ 159) && isCont b3 && isValidUtf8 r
      | _ => false
    else if b = 240 then
      match rest with
      | b2 :: b3 :: b4 :: r =>
        (144 ≤ b2 && b2 ≤ 191) && isCont b3 && isCont b4 && isValidUtf8 r
      | _ => false
    else if 241 ≤ b && b ≤ 243 then
      match rest with
      | b2 :: b3 :: b4 :: r => isCont b2 && isCont b3 && isCont b4 && isValidUtf8 r
      | _ => false
    else if b = 244 then
      match rest with
      | b2 :: b3 :: b4 :: r =>
        (128 ≤ b2 && b2 ≤ 143) && isCont b3 && isCont b4 && isValidUtf8 r
      | _ => false
    else false

/-- The bytes that the unchecked `CStr::from_ptr` scan of
`MemDb::get_cstr` (src/memdb/read.rs lines 242-247) would return:
everything from `offset` up to the first NUL byte.  `none` when no NUL
exists inside the region at or after `offset` — in that case the Rust
code keeps reading outside the backing region. -/
def cstrBytesAt (buffer : List Nat) (offset : Nat) : Option (List Nat) :=
  ((buffer.drop offset).findIdx? (fun b => b = 0)).map
    (fun i => (buffer.drop offset).take i)

/-- `MemDb::get_cstr` from src/memdb/read.rs lines 242-247: scan for
the terminating NUL (an out-of-region read when there is none — the
scan is not bounds-checked), then require UTF-8 (`BadMemDb` per the
spec's error taxonomy otherwise). -/
def get_cstr (buffer : List Nat) (offset : Nat) : Except ErrorKind (List Nat) :=
  match cstrBytesAt buffer offset with
  | none => Except.error ErrorKind.oobRead
  | some bs =>
    if isValidUtf8 bs then Except.ok bs else Except.error ErrorKind.BadMemDb

/-- The loop of `MemDb::find_uuid` (src/memdb/read.rs lines 197-204):
walk the tagged-name region from `offset`, counting entries in
`uuid_idx`; on the first entry equal to `refstr` return the UUID at
position `uuid_idx` of the UUID table (a Rust panic when that position
is out of range). -/
def MemDb.findUuidFrom (db : MemDb) (refstr : List Nat) (endOfs : Nat)
    (offset : Nat) (uuid_idx : Nat) : Except ErrorKind (Option Nat) :=
  if hofs : offset < endOfs then
    match get_cstr db.buffer offset with
    | Except.error k => Except.error k
    | Except.ok s =>
      if s = refstr then
        match db.uuids with
        | Except.error k => Except.error k
        | Except.ok uuids =>
          if hl : uuid_idx < uuids.length then
            Except.ok (some ((uuids.get ⟨uuid_idx, hl⟩).uuid))
          else Except.error (ErrorKind.panicked "index out of bounds")
      else db.findUuidFrom refstr endOfs (offset + s.length + 1) (uuid_idx + 1)
  else Except.ok none
termination_by endOfs - offset
decreasing_by simp_wf; omega

/-- `MemDb::find_uuid` from src/memdb/read.rs lines 192-206: scan the
tagged-name region for `"object_name:arch"` (both strings given as
UTF-8 byte lists; byte 58 is the colon). -/
def MemDb.find_uuid (db : MemDb) (object_name arch : List Nat) :
    Except ErrorKind (Option Nat) :=
  match readHeader db.buffer with
  | Except.error k => Except.error k
  | Except.ok h =>
    db.findUuidFrom (object_name ++ 58 :: arch) h.tagged_object_names_end
      h.tagged_object_names_start 0

/-- Value of an ASCII hex digit byte, case-insensitive. -/
def hexVal (b : Nat) : Option Nat :=
  if 48 ≤ b && b ≤ 57 then some (b - 48)
  else if 97 ≤ b && b ≤ 102 then some (b - 87)
  else if 65 ≤ b && b ≤ 70 then some (b - 55)
  else none

/-- Fold a list of hex digit bytes into a value; `none` on the first
non-hex byte. -/
def parseHexDigits : List Nat → Option Nat → Option Nat
  | _, none => none
  | [], some acc => some acc
  | b :: rest, some acc =>
    match hexVal b with
    | some v => parseHexDigits rest (some (acc * 16 + v))
    | none => none

/-- Embedding of the external uuid crate's `FromStr` for the two
canonical textual forms: 32 hex digits, or 8-4-4-4-12 hex digits with
hyphens (byte 45) at positions 8, 13, 18 and 23.  Both forms reject
every byte other than hex digits and those hyphens; in particular a
string containing a colon never parses as a UUID. -/
def parseUuid (l : List Nat) : Option Nat :=
  if l.length = 32 then parseHexDigits l (some 0)
  else if l.length = 36 then
    if l.get? 8 = some 45 && l.get? 13 = some 45 &&
       l.get? 18 = some 45 && l.get? 23 = some 45 then
      parseHexDigits ((List.range 36).filterMap
        (fun i => if i = 8 || i = 13 || i = 18 || i = 23 then none else l.get? i))
        (some 0)
    else none
  else none

/-- The byte list before and after the last colon of `l`, mirroring
`rsplitn(2, ':')` from src/memdb/read.rs line 218: `none` when `l`
holds no colon (then the second item of the Rust iterator is `None`
and the `if_chain` falls through). -/
def lastColonSplit (l : List Nat) : Option (List Nat × List Nat) :=
  match l with
  | [] => none
  | b :: rest =>
    match lastColonSplit rest with
    | some (name, arch) => some (b :: name, arch)
    | none => if b = 58 then some ([], rest) else none

/-- `MemDb::find_uuid_fuzzy` from src/memdb/read.rs lines 210-229: a
string that parses as a UUID is binary-searched in the UUID table;
otherwise the string is split at its last colon into (name, arch) and
resolved through `find_uuid`; a string with no colon resolves to
`None`. -/
def MemDb.find_uuid_fuzzy (db : MemDb) (name_or_uuid : List Nat) :
    Except ErrorKind (Option Nat) :=
  match parseUuid name_or_uuid with
  | some parsed =>
    match db.uuids with
    | Except.error k => Except.error k
    | Except.ok uuids =>
      match binsearch_by_key uuids parsed IndexedUuid.uuid with
      | some item => Except.ok (some item.uuid)
      | none => Except.ok none
  | none =>
    match lastColonSplit name_or_uuid with
    | some (name, arch) =>
      match db.find_uuid name arch with
      | Except.error k => Except.error k
      | Except.ok (some uuid) => Except.ok (some uuid)
      | Except.ok none => Except.ok none
    | none => Except.ok none

/-- `MemDb::get_string` from src/memdb/read.rs lines 303-310: fetch
the slice bytes bounds-checked, panic on the reserved compressed flag,
require UTF-8. -/
def MemDb.get_string (db : MemDb) (slice : StoredSlice) :
    Except ErrorKind (List Nat) :=
  match getData db.buffer slice.offset slice.len with
  | Except.error k => Except.error k
  | Except.ok bytes =>
    if slice.is_compressed then
      Except.error (ErrorKind.panicked "We do not support compression")
    else if isValidUtf8 bytes then Except.ok bytes
    else Except.error ErrorKind.BadMemDb

/-- `MemDb::get_object_name` from src/memdb/read.rs lines 312-314
(Rust indexing panics when the id is out of range). -/
def MemDb.get_object_name (db : MemDb) (src_id : Nat) :
    Except ErrorKind (List Nat) :=
  match db.object_names with
  | Except.error k => Except.error k
  | Except.ok names =>
    if hlt : src_id < names.length then db.get_string (names.get ⟨src_id, hlt⟩)
    else Except.error (ErrorKind.panicked "index out of bounds")

/-- `MemDb::get_symbol` from src/memdb/read.rs lines 316-318. -/
def MemDb.get_symbol (db : MemDb) (sym_id : Nat) :
    Except ErrorKind (List Nat) :=
  match db.symbolSlices with
  | Except.error k => Except.error k
  | Except.ok syms =>
    if hlt : sym_id < syms.length then db.get_string (syms.get ⟨sym_id, hlt⟩)
    else Except.error (ErrorKind.panicked "index out of bounds")

/-- `Symbol` from src/memdb/read.rs lines 37-42 (strings kept as
their UTF-8 bytes). -/
structure SymbolM where
  object_uuid : Nat
  object_name : List Nat
  symbol : List Nat
  addr : Nat
deriving DecidableEq, Repr

/-- `MemDb::index_item_to_symbol` from src/memdb/read.rs lines
320-327. -/
def MemDb.index_item_to_symbol (db : MemDb) (ii : IndexItem) (uuid : Nat) :
    Except ErrorKind SymbolM :=
  match db.get_object_name ii.src_id with
  | Except.error k => Except.error k
  | Except.ok oname =>
    match db.get_symbol ii.sym_id with
    | Except.error k => Except.error k
    | Except.ok sym => Except.ok ⟨uuid, oname, sym, ii.addr⟩

/-- `MemDb::lookup_impl` from src/memdb/read.rs lines 249-257: fetch
the variant's index, binary-search by address for an exact match,
materialize the symbol; `Ok(None)` when the UUID or the address
misses. -/
def MemDb.lookup_impl (db : MemDb) (uuid addr : Nat) :
    Except ErrorKind (Option SymbolM) :=
  match db.get_index uuid with
  | Except.error k => Except.error k
  | Except.ok (some index) =>
    match binsearch_by_key index addr IndexItem.addr with
    | some item =>
      match db.index_item_to_symbol item uuid with
      | Except.error k => Except.error k
      | Except.ok s => Except.ok (some s)
    | none => Except.ok none
  | Except.ok none => Except.ok none

/-- Does `k` model an abnormal termination — a Rust panic unwinding, or
an unchecked out-of-region read — rather than an `Err` value the
program actually returns? -/
def isAbnormal : ErrorKind → Bool
  | ErrorKind.panicked _ => true
  | ErrorKind.oobRead => true
  | _ => false

/-- `MemDb::lookup_by_uuid` from src/memdb/read.rs lines 176-178:
`self.lookup_impl(uuid, addr).ok().and_then(|x| x)`.  `Result::ok`
turns a genuine `Err` value into `None` and `.and_then(|x| x)`
flattens; the modelled abnormal outcomes (`panicked`, `oobRead`) are
not `Err` values — a panic unwinds past this function instead of
returning — so they propagate unchanged. -/
def MemDb.lookup_by_uuid (db : MemDb) (uuid addr : Nat) :
    Except ErrorKind (Option SymbolM) :=
  match db.lookup_impl uuid addr with
  | Except.error k =>
    if isAbnormal k then Except.error k else Except.ok none
  | Except.ok v => Except.ok v

/-- `SymbolIter` from src/memdb/read.rs lines 45-50. -/
structure SymbolIterM where
  uuid : Nat
  index : List IndexItem
  pos : Nat
deriving DecidableEq, Repr

/-- `MemDb::iter_symbols` from src/memdb/read.rs lines 232-240: the
variant's index, or the empty slice when the UUID is absent from the
table. -/
def MemDb.iter_symbols (db : MemDb) (uuid : Nat) :
    Except ErrorKind SymbolIterM :=
  match db.get_index uuid with
  | Except.error k => Except.error k
  | Except.ok idx => Except.ok ⟨uuid, idx.getD [], 0⟩

/-- Every item that `SymbolIter::next` (src/memdb/read.rs lines
52-64) will yield from state `it`, in order. -/
def symbolIterItems (db : MemDb) (it : SymbolIterM) :
    List (Except ErrorKind SymbolM) :=
  (it.index.drop it.pos).map (fun ii => db.index_item_to_symbol ii it.uuid)

/- ---------------------------------------------------------------- -/
/- § A concrete well-formed symdb file                               -/
/- ---------------------------------------------------------------- -/

/-- A concrete 170-byte symdb file, laid out per the modelled schema:
version 1; two UUID entries (values 5 and 9, variant indices 0 and 1);
variant 0 owns one index item (address 4096, symbol 0 `"foo"`, object
0 `"CoreFoo"`), variant 1 owns an empty index; tagged names
`"a:arm64"` and `"b:x"` in UUID-table order. -/
def exampleDb : List Nat :=
  [1, 0, 0, 0] ++ List.replicate 20 0 ++
  [64, 0, 0, 0] ++ [2, 0, 0, 0] ++ [104, 0, 0, 0] ++ [2, 0, 0, 0] ++
  [120, 0, 0, 0] ++ [1, 0, 0, 0] ++ [128, 0, 0, 0] ++ [1, 0, 0, 0] ++
  [158, 0, 0, 0] ++ [170, 0, 0, 0] ++
  (List.replicate 15 0 ++ [5] ++ [0, 0, 0, 0]) ++
  (List.replicate 15 0 ++ [9] ++ [1, 0, 0, 0]) ++
  [146, 0, 0, 0, 0, 11, 0, 0] ++ [157, 0, 0, 0, 0, 0, 0, 0] ++
  [136, 0, 0, 0, 0, 3, 0, 0] ++
  [139, 0, 0, 0, 0, 7, 0, 0] ++
  [102, 111, 111] ++
  [67, 111, 114, 101, 70, 111, 111] ++
  [0, 16, 0, 0, 0, 0, 0, 0, 0, 0, 0] ++
  [0] ++
  [97, 58, 97, 114, 109, 54, 52, 0] ++ [98, 58, 120, 0]

/-- The `MemDb` value that `load_memdb exampleDb` produces. -/
def exampleMemDb : MemDb := ⟨List.replicate 20 0, exampleDb⟩

/-- A 64-byte file whose header is valid (version 1) but whose UUID
table descriptor points outside the file (start 1000, count 1). -/
def badUuidTableDb : List Nat :=
  [1, 0, 0, 0] ++ List.replicate 20 0 ++
  [232, 3, 0, 0] ++ [1, 0, 0, 0] ++
  [0, 0, 0, 0] ++ [0, 0, 0, 0] ++
  [0, 0, 0, 0] ++ [0, 0, 0, 0] ++
  [0, 0, 0, 0] ++ [0, 0, 0, 0] ++
  [64, 0, 0, 0] ++ [64, 0, 0, 0]

/-- Every error a lookup can produce is either the `BadMemDb` of a
bounds or UTF-8 violation, or a modelled Rust panic (out-of-range
table id, compressed string). -/
def isBadOrPanic (k : ErrorKind) : Prop :=
  k = ErrorKind.BadMemDb ∨ ∃ s, k = ErrorKind.panicked s

/-- A file whose header and UUID table are valid but whose variant
table descriptor points outside the file (start 1000): the binary
search hits UUID 5, and fetching its variant slice violates the
bounds. -/
def badVariantDb : List Nat :=
  [1, 0, 0, 0] ++ List.replicate 20 0 ++
  [64, 0, 0, 0] ++ [1, 0, 0, 0] ++
  [232, 3, 0, 0] ++ [1, 0, 0, 0] ++
  [0, 0, 0, 0] ++ [0, 0, 0, 0] ++
  [0, 0, 0, 0] ++ [0, 0, 0, 0] ++
  [84, 0, 0, 0] ++ [84, 0, 0, 0] ++
  (List.replicate 15 0 ++ [5] ++ [0, 0, 0, 0])

/-- A 65-byte file whose header is valid and whose tagged-name region
is declared as [64, 65), but byte 64 is not NUL and no NUL follows
before the end of the file: the `CStr::from_ptr` scan of `get_cstr`
runs past the mapped region. -/
def noNulTailDb : List Nat :=
  [1, 0, 0, 0] ++ List.replicate 20 0 ++
  [0, 0, 0, 0] ++ [0, 0, 0, 0] ++
  [0, 0, 0, 0] ++ [0, 0, 0, 0] ++
  [0, 0, 0, 0] ++ [0, 0, 0, 0] ++
  [0, 0, 0, 0] ++ [0, 0, 0, 0] ++
  [64, 0, 0, 0] ++ [65, 0, 0, 0] ++
  [65]

/-- Position of the first occurrence of `x` in `l`. -/
def firstIdx (l : List (List Nat)) (x : List Nat) : Option Nat :=
  match l with
  | [] => none
  | a :: rest => if a = x then some 0 else (firstIdx rest x).map (fun i => i + 1)

/-- The tagged-name region `[offset, endOfs)` of `buffer` decodes to
the NUL-terminated UTF-8 strings `names`, exactly as the `find_uuid`
loop walks them: each entry is read by `get_cstr` and the cursor
advances past its NUL. -/
inductive TaggedRegion (buffer : List Nat) : Nat → Nat → List (List Nat) → Prop where
  | nil (offset endOfs : Nat) (h : ¬ offset < endOfs) :
      TaggedRegion buffer offset endOfs []
  | cons (offset endOfs : Nat) (s : List Nat) (rest : List (List Nat))
      (h : offset < endOfs)
      (hs : get_cstr buffer offset = Except.ok s)
      (ht : TaggedRegion buffer (offset + s.length + 1) endOfs rest) :
      TaggedRegion buffer offset endOfs (s :: rest)

/- ---------------------------------------------------------------- -/
/- § Helper lemmas: the filename matcher                             -/
/- ---------------------------------------------------------------- -/

theorem takeClass_append (p : Char → Bool) (l r : List Char)
    (hl : ∀ c ∈ l, p c = true) (hr : ∀ c, r.head? = some c → p c = false) :
    takeClass p (l ++ r) = (l, r) := by
  induction l with
  | nil =>
    cases r with
    | nil => rfl
    | cons c r0 => simp [takeClass, hr c rfl]
  | cons c l0 ih =>
    have hc : p c = true := hl c (by simp)
    simp [takeClass, hc, ih (fun d hd => hl d (by simp [hd]))]

theorem matchSdkFilename_no_patch (maj minr bld : List Char)
    (hmaj1 : maj ≠ []) (hmaj2 : ∀ c ∈ maj, isDigitCh c = true)
    (hmin1 : minr ≠ []) (hmin2 : ∀ c ∈ minr, isDigitCh c = true)
    (hbld1 : bld ≠ []) (hbld2 : ∀ c ∈ bld, isAlnumCh c = true) :
    matchSdkFilename (maj ++ '.' :: (minr ++ ' ' :: '(' :: (bld ++ [')']))) =
      some ⟨maj, minr, none, bld⟩ := by
  have h1 : takeClass isDigitCh (maj ++ '.' :: (minr ++ ' ' :: '(' :: (bld ++ [')']))) =
      (maj, '.' :: (minr ++ ' ' :: '(' :: (bld ++ [')']))) :=
    takeClass_append _ _ _ hmaj2 (by intro c hc; cases hc; decide)
  have h2 : takeClass isDigitCh (minr ++ ' ' :: '(' :: (bld ++ [')'])) =
      (minr, ' ' :: '(' :: (bld ++ [')'])) :=
    takeClass_append _ _ _ hmin2 (by intro c hc; cases hc; decide)
  have h3 : takeClass isSpaceCh (' ' :: '(' :: (bld ++ [')'])) =
      ([' '], '(' :: (bld ++ [')'])) := by
    have : (' ' :: '(' :: (bld ++ [')'])) = [' '] ++ '(' :: (bld ++ [')']) := rfl
    rw [this]
    exact takeClass_append _ _ _ (by intro c hc; simp at hc; subst hc; decide)
      (by intro c hc; cases hc; decide)
  have h4 : takeClass isAlnumCh (bld ++ [')']) = (bld, [')']) :=
    takeClass_append _ _ _ hbld2 (by intro c hc; cases hc; decide)
  simp only [matchSdkFilename, h1, h2, h3, h4]
  simp [hmaj1, hmin1, hbld1, h3, h4]

theorem parseU32_eq (l : List Char) (h1 : l ≠ []) (h2 : digitsToNat l < 2 ^ 32) :
    parseU32 l = some (digitsToNat l) := by
  have h0 : l.isEmpty = false := by cases l with | nil => exact absurd rfl h1 | cons a b => rfl
  simp [parseU32, h0]
  exact h2

/- ---------------------------------------------------------------- -/
/- § Claims C3 and C9: SDK descriptor                                -/
/- ---------------------------------------------------------------- -/

/-- C3: the file-name pattern accepts an optional trailing `.zip` but
not `.memdb`, although the repository's own test
`test_sdk_info_parse_ios_patchlevel_ext_memdb` (src/tests/test_sdk.rs
lines 40-49) asserts that the `.memdb` form parses like the others:
`SdkInfo::from_path` returns `None` on the `.memdb` form while the
bare and `.zip` forms both succeed with identical fields. -/
theorem C3_memdb_ext_not_accepted :
    SdkInfo.from_path ["Xcode", "iOS DeviceSupport", "10.2.3 (14C93).memdb"] = none ∧
    SdkInfo.from_path ["Xcode", "iOS DeviceSupport", "10.2.3 (14C93).zip"] =
      some ⟨"iOS", 10, 2, 3, "14C93", none⟩ ∧
    SdkInfo.from_path ["Xcode", "iOS DeviceSupport", "10.2.3 (14C93)"] =
      some ⟨"iOS", 10, 2, 3, "14C93", none⟩ := by
  refine ⟨?_, ?_, ?_⟩ <;> decide

/-- C9: for every path whose parent folder is a known platform folder
and whose file-name component is `MAJOR.MINOR (BUILD)` with no patch
component, `SdkInfo::from_path` succeeds with patchlevel 0 and the
major, minor and build taken from the matched components. -/
theorem C9_missing_patch_defaults_to_zero
    (pre : List String) (folder sdkname : String) (maj minr bld : List Char)
    (hfolder : get_sdk_name_from_folder folder = some sdkname)
    (hmaj1 : maj ≠ []) (hmaj2 : ∀ c ∈ maj, isDigitCh c = true)
    (hmin1 : minr ≠ []) (hmin2 : ∀ c ∈ minr, isDigitCh c = true)
    (hbld1 : bld ≠ []) (hbld2 : ∀ c ∈ bld, isAlnumCh c = true)
    (hmajv : digitsToNat maj < 2 ^ 32) (hminv : digitsToNat minr < 2 ^ 32) :
    SdkInfo.from_path
      (pre ++ [folder, String.mk (maj ++ '.' :: (minr ++ ' ' :: '(' :: (bld ++ [')'])))]) =
      some ⟨sdkname, digitsToNat maj, digitsToNat minr, 0, String.mk bld, none⟩ := by
  have hrev : (pre ++ [folder,
      String.mk (maj ++ '.' :: (minr ++ ' ' :: '(' :: (bld ++ [')'])))]).reverse =
      String.mk (maj ++ '.' :: (minr ++ ' ' :: '(' :: (bld ++ [')']))) ::
        folder :: pre.reverse := by
    simp
  have hmatch := matchSdkFilename_no_patch maj minr bld hmaj1 hmaj2 hmin1 hmin2 hbld1 hbld2
  have hz : parseU32 ['0'] = some 0 := by decide
  simp only [SdkInfo.from_path, hrev]
  simp [hmatch, hfolder, parseU32_eq maj hmaj1 hmajv, parseU32_eq minr hmin1 hminv, hz]

/-- Witness for C9 at the spec's own example
`".../iOS DeviceSupport/10.2 (14C92)"`. -/
theorem C9_missing_patch_defaults_to_zero_witness :
    SdkInfo.from_path ["Xcode", "iOS DeviceSupport", "10.2 (14C92)"] =
      some ⟨"iOS", 10, 2, 0, "14C92", none⟩ := by
  have h := C9_missing_patch_defaults_to_zero ["Xcode"] "iOS DeviceSupport" "iOS"
    ['1', '0'] ['2'] ['1', '4', 'C', '9', '2']
    (by decide) (by decide) (by decide) (by decide) (by decide)
    (by decide) (by decide) (by decide) (by decide)
  exact h

/- ---------------------------------------------------------------- -/
/- § Claim C5: symbol iterator filter                                -/
/- ---------------------------------------------------------------- -/

theorem symbolIteratorStep_eq_some (sym : MachSymbol) (a : Nat) (n : String) :
    symbolIteratorStep sym = some (a, n) ↔
      ∃ sect : MachSection, sym = MachSymbol.Defined (some n) false (some sect) a ∧
        sect.segname = "__TEXT" ∧ sect.sectname = "__text" := by
  constructor
  · intro h
    cases sym with
    | Defined name ext sect entry =>
      cases ext with
      | true => simp [symbolIteratorStep] at h
      | false =>
        cases name with
        | none => simp [symbolIteratorStep] at h
        | some m =>
          cases sect with
          | none => simp [symbolIteratorStep] at h
          | some s =>
            simp [symbolIteratorStep, SEG_TEXT, SECT_TEXT] at h
            exact ⟨s, by rw [h.2.1, h.2.2], h.1.1, h.1.2⟩
    | Undefined name ext => simp [symbolIteratorStep] at h
    | OtherSym => simp [symbolIteratorStep] at h
  · rintro ⟨s, rfl, h1, h2⟩
    simp [symbolIteratorStep, SEG_TEXT, SECT_TEXT, h1, h2]

/-- C5 counterexample: a defined, named, non-external symbol whose
owning section is literally named `__TEXT` (rather than `__text`)
inside segment `__TEXT` is not yielded, because the code compares the
section name against the mach_object constant `SECT_TEXT`, which is
the lowercase `__text`. -/
theorem C5_counterexample :
    ¬ (4096, "f") ∈ symbolsIter
      [MachSymbol.Defined (some "f") false
        (some { sectname := "__TEXT", segname := "__TEXT" }) 4096] := by
  decide

/-- C5 (amended: the owning section's name is `__text`, not `__TEXT`):
the iterator yields (address, name) exactly for the nlist entries that
are Defined, carry a name, are not external, and whose owning section
lies in segment `__TEXT` with section name `__text`; undefined,
external, nameless and differently-sectioned symbols are never
yielded. -/
theorem C5_symbol_filter (syms : List MachSymbol) (a : Nat) (n : String) :
    (a, n) ∈ symbolsIter syms ↔
      ∃ sect : MachSection,
        MachSymbol.Defined (some n) false (some sect) a ∈ syms ∧
        sect.segname = "__TEXT" ∧ sect.sectname = "__text" := by
  constructor
  · intro h
    rcases List.mem_filterMap.1 h with ⟨sym, hmem, hstep⟩
    rcases (symbolIteratorStep_eq_some sym a n).1 hstep with ⟨s, rfl, h1, h2⟩
    exact ⟨s, hmem, h1, h2⟩
  · rintro ⟨s, hmem, h1, h2⟩
    exact List.mem_filterMap.2
      ⟨MachSymbol.Defined (some n) false (some s) a, hmem,
        (symbolIteratorStep_eq_some _ a n).2 ⟨s, rfl, h1, h2⟩⟩

/- ---------------------------------------------------------------- -/
/- § Claim C7: architecture resolution                               -/
/- ---------------------------------------------------------------- -/

/-- C7: `Object::symbols` fails with `UnknownArchitecture` exactly
when the flag is not in the architecture table, fails with
`MissingArchitecture` exactly when the flag resolves but no variant
(FAT child or single Mach-O header) carries the pair, and otherwise
succeeds, returning the symbol source of the first matching variant. -/
theorem C7_symbols_arch_resolution (o : OFileM) (arch : String) :
    (Object.symbols o arch = Except.error (ErrorKind.UnknownArchitecture arch) ↔
      get_arch_from_flag arch = none) ∧
    (Object.symbols o arch = Except.error (ErrorKind.MissingArchitecture arch) ↔
      ∃ p, get_arch_from_flag arch = some p ∧ hasArchVariant o p.1 p.2 = false) ∧
    ((∃ sm, Object.symbols o arch = Except.ok sm) ↔
      ∃ p, get_arch_from_flag arch = some p ∧ hasArchVariant o p.1 p.2 = true) ∧
    (∀ files ct cst fc, get_arch_from_flag arch = some (ct, cst) →
      o = OFileM.fatFile files →
      files.find? (fun fc2 => fc2.1.cputype = ct && fc2.1.cpusubtype = cst) = some fc →
      Object.symbols o arch = Except.ok ⟨some fc.1, fc.1.offset⟩) := by
  cases hflag : get_arch_from_flag arch with
  | none =>
    have hsym : Object.symbols o arch = Except.error (ErrorKind.UnknownArchitecture arch) := by
      simp [Object.symbols, hflag]
    refine ⟨by simp [hsym], by simp [hsym], by simp [hsym], ?_⟩
    intro files ct cst fc hp ho hfind2
    simp at hp
  | some p0 =>
    obtain ⟨cputype, cpusubtype⟩ := p0
    cases o with
    | fatFile files =>
      cases hfind : files.find?
          (fun fc => fc.1.cputype = cputype && fc.1.cpusubtype = cpusubtype) with
      | some fc =>
        have hany : hasArchVariant (OFileM.fatFile files) cputype cpusubtype = true := by
          have hmem := List.mem_of_find?_eq_some hfind
          have hpred := List.find?_some hfind
          simp only [hasArchVariant]
          exact List.any_eq_true.2 ⟨fc, hmem, hpred⟩
        have hsym : Object.symbols (OFileM.fatFile files) arch =
            Except.ok ⟨some fc.1, fc.1.offset⟩ := by
          simp [Object.symbols, hflag, hfind]
        refine ⟨by simp [hsym], by simp [hsym, hany], by simp [hsym, hany], ?_⟩
        intro files2 ct cst fc2 hp ho hfind2
        injection ho with ho2
        subst ho2
        injection hp with hp2
        cases hp2
        rw [hfind] at hfind2
        injection hfind2 with hfind3
        subst hfind3
        exact hsym
      | none =>
        have hany : hasArchVariant (OFileM.fatFile files) cputype cpusubtype = false := by
          simp only [hasArchVariant]
          rw [List.any_eq_false]
          intro fc hmem
          have := List.find?_eq_none.1 hfind fc hmem
          simpa using this
        have hsym : Object.symbols (OFileM.fatFile files) arch =
            Except.error (ErrorKind.MissingArchitecture arch) := by
          simp [Object.symbols, hflag, hfind]
        refine ⟨by simp [hsym], by simp [hsym, hany], by simp [hsym, hany], ?_⟩
        intro files2 ct cst fc2 hp ho hfind2
        injection ho with ho2
        subst ho2
        injection hp with hp2
        cases hp2
        rw [hfind] at hfind2
        simp at hfind2
    | machFile cput cpust =>
      by_cases hmatchp : cput = cputype ∧ cpust = cpusubtype
      · obtain ⟨h1, h2⟩ := hmatchp
        subst h1
        subst h2
        have hsym : Object.symbols (OFileM.machFile cput cpust) arch =
            Except.ok ⟨none, 0⟩ := by
          simp [Object.symbols, hflag]
        refine ⟨by simp [hsym], by simp [hsym, hasArchVariant],
          by simp [hsym, hasArchVariant], ?_⟩
        intro files ct cst fc hp ho hfind2
        simp at ho
      · have hne : (cput = cputype && cpust = cpusubtype) = false := by
          rcases Decidable.not_and_iff_or_not.1 hmatchp with h | h <;> simp [h]
        have hsym : Object.symbols (OFileM.machFile cput cpust) arch =
            Except.error (ErrorKind.MissingArchitecture arch) := by
          simp only [Object.symbols, hflag, hne]
          rfl
        refine ⟨by simp [hsym],
          by simp [hsym, hasArchVariant, hne]; exact fun h1 h2 => hmatchp ⟨h1, h2⟩,
          by simp [hsym, hasArchVariant, hne]; exact fun h1 h2 => hmatchp ⟨h1, h2⟩, ?_⟩
        intro files ct cst fc hp ho hfind2
        simp at ho
    | other =>
      have hsym : Object.symbols OFileM.other arch =
          Except.error (ErrorKind.MissingArchitecture arch) := by
        simp [Object.symbols, hflag]
      refine ⟨by simp [hsym], by simp [hsym, hasArchVariant],
        by simp [hsym, hasArchVariant], ?_⟩
      intro files ct cst fc hp ho hfind2
      simp at ho

/-- Witness for C7 on a concrete FAT object with an arm64 child at
offset 4096: the known flag `arm64` succeeds on the matching child,
and the characterizations evaluate as stated. -/
theorem C7_symbols_arch_resolution_witness :
    Object.symbols (OFileM.fatFile [(⟨16777228, 0, 4096⟩, ())]) "arm64" =
      Except.ok ⟨some ⟨16777228, 0, 4096⟩, 4096⟩ := by
  have h := (C7_symbols_arch_resolution
    (OFileM.fatFile [(⟨16777228, 0, 4096⟩, ())]) "arm64").2.2.2
    [(⟨16777228, 0, 4096⟩, ())] 16777228 0 (⟨16777228, 0, 4096⟩, ())
    (by decide) rfl (by decide)
  exact h

/- ---------------------------------------------------------------- -/
/- § Claim C6: bundle walker error tolerance                         -/
/- ---------------------------------------------------------------- -/

/-- C6: at every step of the bundle walker, over both sources: a
Mach-O load error (the inner parser rejected the entry as not a
Mach-O) is silently skipped and iteration continues; every other
error — failed reads, failed walkdir entries or metadata, any other
parse error — is surfaced as an `Err` item; empty archive members,
empty files and non-files are skipped without being parsed (the
conclusion does not depend on the entry's parse outcome); a parsed
object is yielded under its name. -/
theorem C6_walker_load_errors_skipped :
    (∀ (e : ZipEntryM) rest buf m,
      e.readResult = Except.ok buf → buf.length > 0 →
      e.parseResult = Except.error (ErrorKind.MachO (MachErr.loadError m)) →
      zipNext (e :: rest) = zipNext rest) ∧
    (∀ (e : ZipEntryM) rest buf k,
      e.readResult = Except.ok buf → buf.length > 0 →
      e.parseResult = Except.error k → isMachLoadError k = false →
      zipNext (e :: rest) = some (Except.error k)) ∧
    (∀ (e : ZipEntryM) rest k,
      e.readResult = Except.error k →
      zipNext (e :: rest) = some (Except.error k)) ∧
    (∀ (e : ZipEntryM) rest,
      e.readResult = Except.ok [] →
      zipNext (e :: rest) = zipNext rest) ∧
    (∀ (e : ZipEntryM) rest buf obj,
      e.readResult = Except.ok buf → buf.length > 0 →
      e.parseResult = Except.ok obj →
      zipNext (e :: rest) = some (Except.ok (strip_archive_file_pfx e.name, obj))) ∧
    (∀ (e : DirEntryM) rest m isf len,
      e.entryResult = Except.ok () → e.metadataResult = Except.ok (isf, len) →
      isf = true → len > 0 →
      e.parseResult = Except.error (ErrorKind.MachO (MachErr.loadError m)) →
      dirNext (e :: rest) = dirNext rest) ∧
    (∀ (e : DirEntryM) rest k isf len,
      e.entryResult = Except.ok () → e.metadataResult = Except.ok (isf, len) →
      isf = true → len > 0 →
      e.parseResult = Except.error k → isMachLoadError k = false →
      dirNext (e :: rest) = some (Except.error k)) ∧
    (∀ (e : DirEntryM) rest k,
      e.entryResult = Except.error k →
      dirNext (e :: rest) = some (Except.error k)) ∧
    (∀ (e : DirEntryM) rest k,
      e.entryResult = Except.ok () → e.metadataResult = Except.error k →
      dirNext (e :: rest) = some (Except.error k)) ∧
    (∀ (e : DirEntryM) rest isf len,
      e.entryResult = Except.ok () → e.metadataResult = Except.ok (isf, len) →
      (isf = false ∨ len = 0) →
      dirNext (e :: rest) = dirNext rest) ∧
    (∀ (e : DirEntryM) rest obj isf len,
      e.entryResult = Except.ok () → e.metadataResult = Except.ok (isf, len) →
      isf = true → len > 0 →
      e.parseResult = Except.ok obj →
      dirNext (e :: rest) = some (Except.ok (e.relPath, obj))) := by
  refine ⟨?_, ?_, ?_, ?_, ?_, ?_, ?_, ?_, ?_, ?_, ?_⟩
  · intro e rest buf m h1 h2 h3
    simp [zipNext, h1, h2, h3, isMachLoadError]
  · intro e rest buf k h1 h2 h3 h4
    simp [zipNext, h1, h2, h3, h4]
  · intro e rest k h1
    simp [zipNext, h1]
  · intro e rest h1
    simp [zipNext, h1]
  · intro e rest buf obj h1 h2 h3
    simp [zipNext, h1, h2, h3]
  · intro e rest m isf len h1 h2 h3 h4 h5
    simp [dirNext, h1, h2, h3, h4, h5, isMachLoadError]
  · intro e rest k isf len h1 h2 h3 h4 h5 h6
    simp [dirNext, h1, h2, h3, h4, h5, h6]
  · intro e rest k h1
    simp [dirNext, h1]
  · intro e rest k h1 h2
    simp [dirNext, h1, h2]
  · intro e rest isf len h1 h2 h3
    rcases h3 with h3 | h3 <;> simp [dirNext, h1, h2, h3]
  · intro e rest obj isf len h1 h2 h3 h4 h5
    simp [dirNext, h1, h2, h3, h4, h5]

/-- Witness for C6: a one-member archive whose member parses with a
load error is exhausted silently; a member with an I/O-failing read
surfaces the error; a parsed member is yielded under its stripped
name. -/
theorem C6_walker_load_errors_skipped_witness :
    zipNext [⟨"Symbols/a", Except.ok [1],
      Except.error (ErrorKind.MachO (MachErr.loadError "x"))⟩] = none ∧
    zipNext [⟨"Symbols/a", Except.error (ErrorKind.ioError "y"),
      Except.ok OFileM.other⟩] = some (Except.error (ErrorKind.ioError "y")) ∧
    zipNext [⟨"Symbols/a", Except.ok [1], Except.ok OFileM.other⟩] =
      some (Except.ok ("a", OFileM.other)) := by
  refine ⟨?_, ?_, ?_⟩
  · exact (C6_walker_load_errors_skipped.1 _ [] [1] "x" rfl (by decide) rfl).trans rfl
  · exact C6_walker_load_errors_skipped.2.2.1 _ [] (ErrorKind.ioError "y") rfl
  · exact (C6_walker_load_errors_skipped.2.2.2.2.1 _ [] [1] OFileM.other rfl
      (by decide) rfl).trans (by rfl)

/- ---------------------------------------------------------------- -/
/- § Helper lemmas: bounds-checked region access                     -/
/- ---------------------------------------------------------------- -/

theorem U64MOD_eq : U64MOD = 18446744073709551616 := by norm_num [U64MOD]

theorem getData_ok_elim (buffer : List Nat) (start len : Nat) (bytes : List Nat)
    (hlen : len < U64MOD)
    (h : getData buffer start len = Except.ok bytes) :
    start + len ≤ buffer.length ∧ bytes = (buffer.drop start).take len := by
  unfold getData at h
  rw [U64MOD_eq] at h hlen
  split at h
  · simp at h
  · rename_i hcond
    simp only [Bool.or_eq_true, decide_eq_true_eq, not_or] at hcond
    obtain ⟨h1, h2⟩ := hcond
    have hmod : (start + len) % 18446744073709551616 = start + len := by omega
    rw [hmod] at h1 h2
    injection h with hbytes
    refine ⟨by omega, ?_⟩
    rw [← hbytes, hmod]
    congr 1
    omega

theorem getData_err_of_oob (buffer : List Nat) (start len : Nat)
    (hlen : len < U64MOD) (hoob : buffer.length < start + len) :
    getData buffer start len = Except.error ErrorKind.BadMemDb := by
  unfold getData
  rw [U64MOD_eq] at hlen ⊢
  split
  · rfl
  · rename_i hcond
    simp only [Bool.or_eq_true, decide_eq_true_eq, not_or] at hcond
    obtain ⟨h1, h2⟩ := hcond
    exfalso
    omega

theorem getData_ok_of_le (buffer : List Nat) (start len : Nat)
    (hsum : start + len < U64MOD) (hle : start + len ≤ buffer.length) :
    getData buffer start len = Except.ok ((buffer.drop start).take len) := by
  unfold getData
  rw [U64MOD_eq] at hsum ⊢
  split
  · rename_i hcond
    simp only [Bool.or_eq_true, decide_eq_true_eq] at hcond
    exfalso
    omega
  · congr 1
    have hmod : (start + len) % 18446744073709551616 = start + len := by omega
    rw [hmod]
    congr 1
    omega

theorem getData_error_kind (buffer : List Nat) (start len : Nat) (k : ErrorKind)
    (h : getData buffer start len = Except.error k) : k = ErrorKind.BadMemDb := by
  unfold getData at h
  split at h
  · injection h with h2
    exact h2.symm
  · simp at h

theorem readHeader_error_kind (buffer : List Nat) (k : ErrorKind)
    (h : readHeader buffer = Except.error k) : k = ErrorKind.BadMemDb := by
  unfold readHeader at h
  cases hg : getData buffer 0 HEADER_SIZE with
  | ok v => rw [hg] at h; simp [Except.map] at h
  | error k2 =>
    rw [hg] at h
    simp [Except.map] at h
    rw [← h]
    exact getData_error_kind _ _ _ _ hg

theorem readHeader_ok_of_le (buffer : List Nat) (hle : HEADER_SIZE ≤ buffer.length) :
    readHeader buffer = Except.ok (decodeHeader (buffer.take HEADER_SIZE)) := by
  unfold readHeader
  rw [getData_ok_of_le buffer 0 HEADER_SIZE (by norm_num [U64MOD, HEADER_SIZE]) (by omega)]
  simp [Except.map]

theorem uuids_error_kind (db : MemDb) (k : ErrorKind)
    (h : db.uuids = Except.error k) : k = ErrorKind.BadMemDb := by
  unfold MemDb.uuids at h
  cases hh : readHeader db.buffer with
  | error k2 =>
    rw [hh] at h
    simp [Except.bind] at h
    rw [← h]
    exact readHeader_error_kind _ _ hh
  | ok hd =>
    rw [hh] at h
    simp only [Except.bind] at h
    cases hg : getData db.buffer hd.uuids_start (hd.uuids_count * INDEXED_UUID_SIZE) with
    | error k3 =>
      rw [hg] at h
      simp at h
      rw [← h]
      exact getData_error_kind _ _ _ _ hg
    | ok data =>
      rw [hg] at h
      simp at h

theorem variants_error_kind (db : MemDb) (k : ErrorKind)
    (h : db.variants = Except.error k) : k = ErrorKind.BadMemDb := by
  unfold MemDb.variants at h
  cases hh : readHeader db.buffer with
  | error k2 =>
    rw [hh] at h
    simp [Except.bind] at h
    rw [← h]
    exact readHeader_error_kind _ _ hh
  | ok hd =>
    rw [hh] at h
    simp only [Except.bind] at h
    cases hg : getData db.buffer hd.variants_start (hd.variants_count * 8) with
    | error k3 =>
      rw [hg] at h
      simp at h
      rw [← h]
      exact getData_error_kind _ _ _ _ hg
    | ok data =>
      rw [hg] at h
      simp at h

theorem symbolSlices_error_kind (db : MemDb) (k : ErrorKind)
    (h : db.symbolSlices = Except.error k) : k = ErrorKind.BadMemDb := by
  unfold MemDb.symbolSlices at h
  cases hh : readHeader db.buffer with
  | error k2 =>
    rw [hh] at h
    simp [Except.bind] at h
    rw [← h]
    exact readHeader_error_kind _ _ hh
  | ok hd =>
    rw [hh] at h
    simp only [Except.bind] at h
    cases hg : getData db.buffer hd.symbols_start (hd.symbols_count * 8) with
    | error k3 =>
      rw [hg] at h
      simp at h
      rw [← h]
      exact getData_error_kind _ _ _ _ hg
    | ok data =>
      rw [hg] at h
      simp at h

theorem object_names_error_kind (db : MemDb) (k : ErrorKind)
    (h : db.object_names = Except.error k) : k = ErrorKind.BadMemDb := by
  unfold MemDb.object_names at h
  cases hh : readHeader db.buffer with
  | error k2 =>
    rw [hh] at h
    simp [Except.bind] at h
    rw [← h]
    exact readHeader_error_kind _ _ hh
  | ok hd =>
    rw [hh] at h
    simp only [Except.bind] at h
    cases hg : getData db.buffer hd.object_names_start (hd.object_names_count * 8) with
    | error k3 =>
      rw [hg] at h
      simp at h
      rw [← h]
      exact getData_error_kind _ _ _ _ hg
    | ok data =>
      rw [hg] at h
      simp at h

/- ---------------------------------------------------------------- -/
/- § Helper lemmas: exact-match binary search                        -/
/- ---------------------------------------------------------------- -/

theorem binsearchAux_sound {α : Type} (l : List α) (key : Nat) (f : α → Nat) :
    ∀ fuel lo hi x, binsearchAux l key f fuel lo hi = some x →
      x ∈ l ∧ f x = key := by
  intro fuel
  induction fuel with
  | zero => intro lo hi x h; simp [binsearchAux] at h
  | succ n ih =>
    intro lo hi x h
    unfold binsearchAux at h
    split at h
    · cases hg : l.get? ((lo + hi) / 2) with
      | none => rw [hg] at h; simp at h
      | some y =>
        rw [hg] at h
        simp only at h
        split at h
        · exact ih lo ((lo + hi) / 2) x h
        · split at h
          · exact ih ((lo + hi) / 2 + 1) hi x h
          · injection h with h2
            subst h2
            rename_i hnlt hnlt2
            refine ⟨List.get?_mem hg, by omega⟩
    · simp at h

theorem binsearchAux_complete {α : Type} (l : List α) (key : Nat) (f : α → Nat)
    (hsorted : ∀ (i j : Nat) (hi : i < l.length) (hj : j < l.length), i < j →
      f (l.get ⟨i, hi⟩) < f (l.get ⟨j, hj⟩)) :
    ∀ fuel lo hi i (h : i < l.length), lo ≤ i → i < hi → hi ≤ l.length →
      hi - lo ≤ fuel → f (l.get ⟨i, h⟩) = key →
      ∃ x, binsearchAux l key f fuel lo hi = some x ∧ f x = key := by
  intro fuel
  induction fuel with
  | zero =>
    intro lo hi i h h1 h2 h3 h4 h5
    omega
  | succ n ih =>
    intro lo hi i h h1 h2 h3 h4 h5
    have hlo : lo < hi := by omega
    have hmid1 : lo ≤ (lo + hi) / 2 := by omega
    have hmid2 : (lo + hi) / 2 < hi := by omega
    have hmidl : (lo + hi) / 2 < l.length := by omega
    have hg : l.get? ((lo + hi) / 2) = some (l.get ⟨(lo + hi) / 2, hmidl⟩) :=
      List.get?_eq_get hmidl
    unfold binsearchAux
    rw [if_pos hlo, hg]
    simp only
    by_cases hklt : key < f (l.get ⟨(lo + hi) / 2, hmidl⟩)
    · rw [if_pos hklt]
      have hilt : i < (lo + hi) / 2 := by
        rcases Nat.lt_trichotomy i ((lo + hi) / 2) with hlt | heq | hgt
        · exact hlt
        · exfalso
          subst heq
          have hsame : f (l.get ⟨(lo + hi) / 2, h⟩) =
            f (l.get ⟨(lo + hi) / 2, hmidl⟩) := rfl
          omega
        · exfalso
          have := hsorted ((lo + hi) / 2) i hmidl h hgt
          omega
      exact ih lo ((lo + hi) / 2) i h h1 hilt (by omega) (by omega) h5
    · rw [if_neg hklt]
      by_cases hflt : f (l.get ⟨(lo + hi) / 2, hmidl⟩) < key
      · rw [if_pos hflt]
        have higt : (lo + hi) / 2 < i := by
          rcases Nat.lt_trichotomy i ((lo + hi) / 2) with hlt | heq | hgt
          · exfalso
            have := hsorted i ((lo + hi) / 2) h hmidl hlt
            omega
          · exfalso
            subst heq
            have hsame : f (l.get ⟨(lo + hi) / 2, h⟩) =
              f (l.get ⟨(lo + hi) / 2, hmidl⟩) := rfl
            omega
          · exact hgt
        exact ih ((lo + hi) / 2 + 1) hi i h (by omega) h2 h3 (by omega) h5
      · rw [if_neg hflt]
        refine ⟨l.get ⟨(lo + hi) / 2, hmidl⟩, rfl, by omega⟩

theorem binsearch_by_key_sound {α : Type} (l : List α) (key : Nat) (f : α → Nat)
    (x : α) (h : binsearch_by_key l key f = some x) : x ∈ l ∧ f x = key :=
  binsearchAux_sound l key f (l.length + 1) 0 l.length x h

theorem binsearch_by_key_none {α : Type} (l : List α) (key : Nat) (f : α → Nat)
    (habs : ∀ x ∈ l, f x ≠ key) : binsearch_by_key l key f = none := by
  cases hb : binsearch_by_key l key f with
  | none => rfl
  | some x =>
    obtain ⟨hmem, hkey⟩ := binsearch_by_key_sound l key f x hb
    exact absurd hkey (habs x hmem)

theorem binsearch_by_key_found {α : Type} (l : List α) (key : Nat) (f : α → Nat)
    (hsorted : List.Pairwise (fun a b => f a < f b) l)
    (i : Nat) (h : i < l.length) (hkey : f (l.get ⟨i, h⟩) = key) :
    ∃ x, binsearch_by_key l key f = some x ∧ f x = key := by
  have hs : ∀ (i j : Nat) (hi : i < l.length) (hj : j < l.length), i < j →
      f (l.get ⟨i, hi⟩) < f (l.get ⟨j, hj⟩) := by
    intro i j hi hj hij
    exact List.pairwise_iff_get.1 hsorted ⟨i, hi⟩ ⟨j, hj⟩ hij
  exact binsearchAux_complete l key f hs (l.length + 1) 0 l.length i h
    (by omega) h (by omega) (by omega) hkey

/- ---------------------------------------------------------------- -/
/- § Claim C4: version check                                         -/
/- ---------------------------------------------------------------- -/

/-- C4: for every byte region at least one header long, memdb
construction fails with `UnsupportedMemDbVersion` exactly when the
header's version field differs from 1 (and succeeds exactly when it is
1); in particular the concrete valid symdb `exampleDb` loads, while
the same bytes with version word 0 or 2 are rejected with
`UnsupportedMemDbVersion`. -/
theorem C4_version_rejection (buffer : List Nat) (hlen : HEADER_SIZE ≤ buffer.length) :
    ((load_memdb buffer = Except.error ErrorKind.UnsupportedMemDbVersion) ↔
      (decodeHeader (buffer.take HEADER_SIZE)).version ≠ 1) ∧
    ((∃ db, load_memdb buffer = Except.ok db) ↔
      (decodeHeader (buffer.take HEADER_SIZE)).version = 1) ∧
    load_memdb ([0, 0, 0, 0] ++ exampleDb.drop 4) =
      Except.error ErrorKind.UnsupportedMemDbVersion ∧
    load_memdb ([2, 0, 0, 0] ++ exampleDb.drop 4) =
      Except.error ErrorKind.UnsupportedMemDbVersion ∧
    load_memdb exampleDb = Except.ok exampleMemDb := by
  have hh := readHeader_ok_of_le buffer hlen
  refine ⟨?_, ?_, rfl, rfl, rfl⟩
  · unfold load_memdb
    rw [hh]
    by_cases hv : (decodeHeader (buffer.take HEADER_SIZE)).version = 1
    · simp [hv]
    · simp [hv]
  · unfold load_memdb
    rw [hh]
    by_cases hv : (decodeHeader (buffer.take HEADER_SIZE)).version = 1
    · simp [hv]
    · simp [hv]

/-- Witness for C4 at the concrete valid symdb. -/
theorem C4_version_rejection_witness :
    ∃ db, load_memdb exampleDb = Except.ok db := by
  have h := (C4_version_rejection exampleDb (by decide)).2.1
  exact h.mpr (by decide)

/- ---------------------------------------------------------------- -/
/- § Claim C10: iter_symbols on an unknown UUID                      -/
/- ---------------------------------------------------------------- -/

/-- C10 counterexample: a MemDb with a readable header (construction
succeeds) on which `iter_symbols` of a UUID that is in no table entry
reports `BadMemDb` instead of succeeding with an empty iterator,
because the UUID table itself is unreadable. -/
theorem C10_counterexample :
    (∃ db, load_memdb badUuidTableDb = Except.ok db) ∧
    MemDb.iter_symbols ⟨List.replicate 20 0, badUuidTableDb⟩ 0 =
      Except.error ErrorKind.BadMemDb :=
  ⟨⟨⟨List.replicate 20 0, badUuidTableDb⟩, rfl⟩, rfl⟩

/-- C10 (amended: for every MemDb whose UUID table is readable):
`iter_symbols` of a UUID that appears in no UUID-table entry succeeds
with an iterator that yields no items — indistinguishable from a known
variant with an empty index, and never an error. -/
theorem C10_unknown_uuid_iterates_empty (db : MemDb) (u : Nat)
    (l : List IndexedUuid) (hu : db.uuids = Except.ok l)
    (habs : ∀ x ∈ l, x.uuid ≠ u) :
    db.iter_symbols u = Except.ok ⟨u, [], 0⟩ ∧
    symbolIterItems db ⟨u, [], 0⟩ = [] := by
  have hb : binsearch_by_key l u IndexedUuid.uuid = none :=
    binsearch_by_key_none l u IndexedUuid.uuid habs
  constructor
  · unfold MemDb.iter_symbols MemDb.get_index
    rw [hu]
    simp [hb]
  · rfl

/-- Witness for C10 (amended) at the concrete symdb and the absent
UUID 7. -/
theorem C10_unknown_uuid_iterates_empty_witness :
    MemDb.iter_symbols exampleMemDb 7 = Except.ok ⟨7, [], 0⟩ := by
  have h := C10_unknown_uuid_iterates_empty exampleMemDb 7
    [⟨5, 0⟩, ⟨9, 1⟩] rfl (by decide)
  exact h.1

/- ---------------------------------------------------------------- -/
/- § Claim C1: lookup error policy                                   -/
/- ---------------------------------------------------------------- -/

theorem get_string_error_kind (db : MemDb) (slice : StoredSlice) (k : ErrorKind)
    (h : db.get_string slice = Except.error k) : isBadOrPanic k := by
  unfold MemDb.get_string at h
  cases hg : getData db.buffer slice.offset slice.len with
  | error k2 =>
    rw [hg] at h
    simp only at h
    injection h with h2
    exact Or.inl (h2 ▸ getData_error_kind _ _ _ _ hg)
  | ok bytes =>
    rw [hg] at h
    simp only at h
    split at h
    · injection h with h2
      exact Or.inr ⟨"We do not support compression", h2.symm⟩
    · split at h
      · simp at h
      · injection h with h2
        exact Or.inl h2.symm

theorem get_object_name_error_kind (db : MemDb) (src_id : Nat) (k : ErrorKind)
    (h : db.get_object_name src_id = Except.error k) : isBadOrPanic k := by
  unfold MemDb.get_object_name at h
  cases hn : db.object_names with
  | error k2 =>
    rw [hn] at h
    simp only at h
    injection h with h2
    exact Or.inl (h2 ▸ object_names_error_kind _ _ hn)
  | ok names =>
    rw [hn] at h
    simp only at h
    split at h
    · exact get_string_error_kind _ _ _ h
    · injection h with h2
      exact Or.inr ⟨"index out of bounds", h2.symm⟩

theorem get_symbol_error_kind (db : MemDb) (sym_id : Nat) (k : ErrorKind)
    (h : db.get_symbol sym_id = Except.error k) : isBadOrPanic k := by
  unfold MemDb.get_symbol at h
  cases hn : db.symbolSlices with
  | error k2 =>
    rw [hn] at h
    simp only at h
    injection h with h2
    exact Or.inl (h2 ▸ symbolSlices_error_kind _ _ hn)
  | ok syms =>
    rw [hn] at h
    simp only at h
    split at h
    · exact get_string_error_kind _ _ _ h
    · injection h with h2
      exact Or.inr ⟨"index out of bounds", h2.symm⟩

theorem get_index_error_kind (db : MemDb) (uuid : Nat) (k : ErrorKind)
    (h : db.get_index uuid = Except.error k) : isBadOrPanic k := by
  unfold MemDb.get_index at h
  cases hu : db.uuids with
  | error k2 =>
    rw [hu] at h
    simp only at h
    injection h with h2
    exact Or.inl (h2 ▸ uuids_error_kind _ _ hu)
  | ok uuids =>
    rw [hu] at h
    simp only at h
    cases hb : binsearch_by_key uuids uuid IndexedUuid.uuid with
    | none => rw [hb] at h; simp at h
    | some iuuid =>
      rw [hb] at h
      simp only at h
      cases hv : db.variants with
      | error k2 =>
        rw [hv] at h
        simp only at h
        injection h with h2
        exact Or.inl (h2 ▸ variants_error_kind _ _ hv)
      | ok variants =>
        rw [hv] at h
        simp only at h
        split at h
        · rename_i hlt
          cases hg : getData db.buffer (variants.get ⟨iuuid.idx, hlt⟩).offset
              (variants.get ⟨iuuid.idx, hlt⟩).len with
          | error k3 =>
            rw [hg] at h
            simp only at h
            injection h with h2
            exact Or.inl (h2 ▸ getData_error_kind _ _ _ _ hg)
          | ok data =>
            rw [hg] at h
            simp at h
        · injection h with h2
          exact Or.inr ⟨"index out of bounds", h2.symm⟩

theorem index_item_to_symbol_error_kind (db : MemDb) (ii : IndexItem) (uuid : Nat)
    (k : ErrorKind) (h : db.index_item_to_symbol ii uuid = Except.error k) :
    isBadOrPanic k := by
  unfold MemDb.index_item_to_symbol at h
  cases ho : db.get_object_name ii.src_id with
  | error k2 =>
    rw [ho] at h
    simp only at h
    injection h with h2
    exact h2 ▸ get_object_name_error_kind _ _ _ ho
  | ok oname =>
    rw [ho] at h
    simp only at h
    cases hs : db.get_symbol ii.sym_id with
    | error k2 =>
      rw [hs] at h
      simp only at h
      injection h with h2
      exact h2 ▸ get_symbol_error_kind _ _ _ hs
    | ok sym =>
      rw [hs] at h
      simp at h

theorem lookup_impl_error_kind (db : MemDb) (uuid addr : Nat) (k : ErrorKind)
    (h : db.lookup_impl uuid addr = Except.error k) : isBadOrPanic k := by
  unfold MemDb.lookup_impl at h
  cases hi : db.get_index uuid with
  | error k2 =>
    rw [hi] at h
    simp only at h
    injection h with h2
    exact h2 ▸ get_index_error_kind _ _ _ hi
  | ok idx =>
    rw [hi] at h
    cases idx with
    | none => simp at h
    | some index =>
      simp only at h
      cases hb : binsearch_by_key index addr IndexItem.addr with
      | none => rw [hb] at h; simp at h
      | some item =>
        rw [hb] at h
        simp only at h
        cases hs : db.index_item_to_symbol item uuid with
        | error k2 =>
          rw [hs] at h
          simp only at h
          injection h with h2
          exact h2 ▸ index_item_to_symbol_error_kind _ _ _ _ hs
        | ok s =>
          rw [hs] at h
          simp at h

/-- C1 counterexample: on an inconsistent file the internal lookup
does produce `BadMemDb`, but the public operation `lookup_by_uuid`
does not return that error — its `.ok().and_then(|x| x)` swallows
the `Err` and the call returns `None`. -/
theorem C1_counterexample :
    MemDb.lookup_impl ⟨List.replicate 20 0, badVariantDb⟩ 5 123 =
      Except.error ErrorKind.BadMemDb ∧
    MemDb.lookup_by_uuid ⟨List.replicate 20 0, badVariantDb⟩ 5 123 =
      Except.ok none :=
  ⟨rfl, rfl⟩

/-- C1 (amended: `lookup_by_uuid` returns `None` on any miss, and on
an inconsistent file the internal `lookup_impl` returns `BadMemDb`,
which `lookup_by_uuid` swallows into a returned `None` rather than
surfacing; out-of-range ids and compressed strings do not produce an
`Err` at all — they panic, and the panic unwinds through
`lookup_by_uuid`): every `lookup_impl` error is of the
`BadMemDb`/panic kind; a returned `BadMemDb` becomes a returned
`None`, a panic propagates; a missing UUID or missing address gives
`Ok(None)`/`None`; a hit is passed through. -/
theorem C1_lookup_miss_and_error_policy (db : MemDb) (uuid addr : Nat) :
    (∀ k, db.lookup_impl uuid addr = Except.error k →
      isBadOrPanic k ∧
      (k = ErrorKind.BadMemDb →
        db.lookup_by_uuid uuid addr = Except.ok none) ∧
      (∀ s, k = ErrorKind.panicked s →
        db.lookup_by_uuid uuid addr = Except.error (ErrorKind.panicked s))) ∧
    (∀ l, db.uuids = Except.ok l → (∀ x ∈ l, x.uuid ≠ uuid) →
      db.lookup_impl uuid addr = Except.ok none ∧
      db.lookup_by_uuid uuid addr = Except.ok none) ∧
    (∀ index, db.get_index uuid = Except.ok (some index) →
      (∀ it ∈ index, it.addr ≠ addr) →
      db.lookup_impl uuid addr = Except.ok none ∧
      db.lookup_by_uuid uuid addr = Except.ok none) ∧
    (∀ s, db.lookup_impl uuid addr = Except.ok (some s) →
      db.lookup_by_uuid uuid addr = Except.ok (some s)) := by
  refine ⟨?_, ?_, ?_, ?_⟩
  · intro k h
    refine ⟨lookup_impl_error_kind _ _ _ _ h, ?_, ?_⟩
    · intro hk
      subst hk
      unfold MemDb.lookup_by_uuid
      rw [h]
      rfl
    · intro s hk
      subst hk
      unfold MemDb.lookup_by_uuid
      rw [h]
      rfl
  · intro l hu habs
    have hb : binsearch_by_key l uuid IndexedUuid.uuid = none :=
      binsearch_by_key_none l uuid IndexedUuid.uuid habs
    have hgi : db.get_index uuid = Except.ok none := by
      unfold MemDb.get_index
      rw [hu]
      simp [hb]
    have himpl : db.lookup_impl uuid addr = Except.ok none := by
      unfold MemDb.lookup_impl
      rw [hgi]
    refine ⟨himpl, ?_⟩
    unfold MemDb.lookup_by_uuid
    rw [himpl]
  · intro index hgi habs
    have hb : binsearch_by_key index addr IndexItem.addr = none :=
      binsearch_by_key_none index addr IndexItem.addr habs
    have himpl : db.lookup_impl uuid addr = Except.ok none := by
      unfold MemDb.lookup_impl
      rw [hgi]
      simp [hb]
    refine ⟨himpl, ?_⟩
    unfold MemDb.lookup_by_uuid
    rw [himpl]
  · intro s h
    unfold MemDb.lookup_by_uuid
    rw [h]

/-- Witness for C1 on the concrete symdb: an absent UUID returns
`None`, and the stored (uuid 5, address 4096) pair resolves to the
stored symbol. -/
theorem C1_lookup_miss_and_error_policy_witness :
    MemDb.lookup_by_uuid exampleMemDb 7 4096 = Except.ok none ∧
    MemDb.lookup_by_uuid exampleMemDb 5 4096 =
      Except.ok (some ⟨5, [67, 111, 114, 101, 70, 111, 111],
        [102, 111, 111], 4096⟩) := by
  constructor
  · exact ((C1_lookup_miss_and_error_policy exampleMemDb 7 4096).2.1
      [⟨5, 0⟩, ⟨9, 1⟩] rfl (by decide)).2
  · exact (C1_lookup_miss_and_error_policy exampleMemDb 5 4096).2.2.2 _ rfl

/- ---------------------------------------------------------------- -/
/- § Claim C2: bounds checking                                       -/
/- ---------------------------------------------------------------- -/

/-- C2: every `get_data`-checked dereference (UUID table, variant
table, index items, string slices) stays inside the backing region
and reports `BadMemDb` on any offset/length that leaves it, including
wraparound; but the tagged-name string read (`get_cstr`) performs no
bounds check at all: on `noNulTailDb` the lookup `find_uuid` scans
past the end of the region (modelled `oobRead`, undefined behaviour
in the Rust source) instead of returning `BadMemDb`. -/
theorem C2_bounds_checked_reads (buffer : List Nat) (start len : Nat) :
    (∀ bytes, len < U64MOD → getData buffer start len = Except.ok bytes →
      start + len ≤ buffer.length ∧ bytes = (buffer.drop start).take len) ∧
    (len < U64MOD → buffer.length < start + len →
      getData buffer start len = Except.error ErrorKind.BadMemDb) ∧
    MemDb.find_uuid ⟨List.replicate 20 0, noNulTailDb⟩ [97] [98] =
      Except.error ErrorKind.oobRead := by
  refine ⟨fun bytes h1 h2 => getData_ok_elim _ _ _ _ h1 h2,
    fun h1 h2 => getData_err_of_oob _ _ _ h1 h2, ?_⟩
  have hc : get_cstr noNulTailDb 64 = Except.error ErrorKind.oobRead := rfl
  unfold MemDb.find_uuid
  rw [show readHeader noNulTailDb =
    Except.ok (decodeHeader (noNulTailDb.take HEADER_SIZE)) from
    readHeader_ok_of_le _ (by decide)]
  show MemDb.findUuidFrom _ _ 65 64 0 = Except.error ErrorKind.oobRead
  unfold MemDb.findUuidFrom
  simp [hc]

/-- Witness for C2 on the concrete symdb: the UUID-table read of
`exampleDb` (offset 64, 40 bytes) is in bounds, and an out-of-bounds
read on the 64-byte `badUuidTableDb` reports `BadMemDb`. -/
theorem C2_bounds_checked_reads_witness :
    (40 < U64MOD ∧ 64 + 40 ≤ exampleDb.length ∧
      (exampleDb.drop 64).take 40 = (exampleDb.drop 64).take 40) ∧
    getData badUuidTableDb 1000 20 = Except.error ErrorKind.BadMemDb := by
  constructor
  · have h := (C2_bounds_checked_reads exampleDb 64 40).1
      ((exampleDb.drop 64).take 40) (by norm_num [U64MOD]) rfl
    exact ⟨by norm_num [U64MOD], h.1, h.2.symm⟩
  · exact (C2_bounds_checked_reads badUuidTableDb 1000 20).2.1
      (by norm_num [U64MOD]) (by decide)

/- ---------------------------------------------------------------- -/
/- § Claim C8: fuzzy UUID resolution                                 -/
/- ---------------------------------------------------------------- -/

theorem lastColonSplit_none (l : List Nat) (h : ¬ (58 : Nat) ∈ l) :
    lastColonSplit l = none := by
  induction l with
  | nil => rfl
  | cons b rest ih =>
    have hb : b ≠ 58 := by intro hb; exact h (hb ▸ List.mem_cons_self b rest)
    have hr : lastColonSplit rest = none := ih (fun hm => h (List.mem_cons_of_mem b hm))
    unfold lastColonSplit
    rw [hr]
    simp [hb]

theorem lastColonSplit_append (name arch : List Nat) (h : ¬ (58 : Nat) ∈ arch) :
    lastColonSplit (name ++ 58 :: arch) = some (name, arch) := by
  induction name with
  | nil =>
    rw [List.nil_append]
    simp only [lastColonSplit]
    rw [lastColonSplit_none arch h]
    simp
  | cons b rest ih =>
    rw [List.cons_append]
    simp only [lastColonSplit]
    rw [ih]

theorem parseHexDigits_colon (l : List Nat) (h : (58 : Nat) ∈ l) :
    ∀ acc, parseHexDigits l acc = none := by
  induction l with
  | nil => cases h
  | cons b rest ih =>
    intro acc
    cases acc with
    | none => rfl
    | some a =>
      rcases List.mem_cons.1 h with hb | hm
      · unfold parseHexDigits
        rw [← hb]
        rfl
      · unfold parseHexDigits
        cases hexVal b with
        | none => rfl
        | some v => exact ih hm _

theorem parseUuid_colon (l : List Nat) (h : (58 : Nat) ∈ l) :
    parseUuid l = none := by
  unfold parseUuid
  rcases List.mem_iff_get.1 h with ⟨⟨i, hi⟩, hget⟩
  by_cases h32 : l.length = 32
  · rw [if_pos h32]
    exact parseHexDigits_colon l h _
  · rw [if_neg h32]
    by_cases h36 : l.length = 36
    · rw [if_pos h36]
      by_cases hhy : (l.get? 8 = some 45 && l.get? 13 = some 45 &&
          l.get? 18 = some 45 && l.get? 23 = some 45) = true
      · rw [if_pos hhy]
        apply parseHexDigits_colon
        simp only [Bool.and_eq_true, decide_eq_true_eq] at hhy
        have hg : l.get? i = some 58 := by
          rw [List.get?_eq_get hi, hget]
        have hi8 : i ≠ 8 := by
          intro he; rw [he] at hg; rw [hhy.1.1.1] at hg; cases hg
        have hi13 : i ≠ 13 := by
          intro he; rw [he] at hg; rw [hhy.1.1.2] at hg; cases hg
        have hi18 : i ≠ 18 := by
          intro he; rw [he] at hg; rw [hhy.1.2] at hg; cases hg
        have hi23 : i ≠ 23 := by
          intro he; rw [he] at hg; rw [hhy.2] at hg; cases hg
        apply List.mem_filterMap.2
        refine ⟨i, List.mem_range.2 (by omega), ?_⟩
        have : ¬ (i = 8 || i = 13 || i = 18 || i = 23) = true := by
          simp [hi8, hi13, hi18, hi23]
        simp only [this, if_false, Bool.if_false_right]
        simpa using hg
      · rw [if_neg hhy]
    · rw [if_neg h36]

theorem findUuidFrom_spec (db : MemDb) (refstr : List Nat) (endOfs : Nat)
    (l : List IndexedUuid) (hu : db.uuids = Except.ok l)
    (offset : Nat) (names : List (List Nat))
    (ht : TaggedRegion db.buffer offset endOfs names) :
    ∀ j, db.findUuidFrom refstr endOfs offset j =
      match firstIdx names refstr with
      | some i =>
        if h : j + i < l.length then Except.ok (some ((l.get ⟨j + i, h⟩).uuid))
        else Except.error (ErrorKind.panicked "index out of bounds")
      | none => Except.ok none := by
  induction ht with
  | nil offset endOfs h =>
    intro j
    unfold MemDb.findUuidFrom
    rw [dif_neg h]
    rfl
  | cons offset endOfs s rest h hs ht ih =>
    intro j
    unfold MemDb.findUuidFrom
    rw [dif_pos h, hs]
    simp only
    by_cases hsr : s = refstr
    · rw [if_pos hsr, hu]
      simp only [firstIdx, hsr]
      simp
    · rw [if_neg hsr, ih (j + 1)]
      simp only [firstIdx, hsr]
      cases hf : firstIdx rest refstr with
      | none => simp [hf]
      | some i =>
        simp only [hf, Option.map_some]
        have harith : j + 1 + i = j + (i + 1) := by omega
        rw [harith]
        simp

theorem fuzzy_uuid_path (db : MemDb) (s : List Nat) (u : Nat)
    (hp : parseUuid s = some u) :
    db.find_uuid_fuzzy s =
      match db.uuids with
      | Except.error k => Except.error k
      | Except.ok uuids =>
        match binsearch_by_key uuids u IndexedUuid.uuid with
        | some item => Except.ok (some item.uuid)
        | none => Except.ok none := by
  unfold MemDb.find_uuid_fuzzy
  rw [hp]

theorem fuzzy_tagged_delegates (db : MemDb) (name arch : List Nat)
    (h : ¬ (58 : Nat) ∈ arch) :
    db.find_uuid_fuzzy (name ++ 58 :: arch) = db.find_uuid name arch := by
  unfold MemDb.find_uuid_fuzzy
  rw [parseUuid_colon _ (by simp), lastColonSplit_append name arch h]
  simp only
  cases hf : db.find_uuid name arch with
  | error k => rfl
  | ok v => cases v <;> rfl

theorem find_uuid_spec (db : MemDb) (name arch : List Nat) (hdr : MemDbHeader)
    (names : List (List Nat)) (l : List IndexedUuid)
    (hh : readHeader db.buffer = Except.ok hdr)
    (ht : TaggedRegion db.buffer hdr.tagged_object_names_start
      hdr.tagged_object_names_end names)
    (hu : db.uuids = Except.ok l) :
    db.find_uuid name arch =
      match firstIdx names (name ++ 58 :: arch) with
      | some i =>
        if h : i < l.length then Except.ok (some ((l.get ⟨i, h⟩).uuid))
        else Except.error (ErrorKind.panicked "index out of bounds")
      | none => Except.ok none := by
  unfold MemDb.find_uuid
  rw [hh]
  simp only
  rw [findUuidFrom_spec db _ _ l hu _ names ht 0]
  cases hf : firstIdx names (name ++ 58 :: arch) with
  | none => rfl
  | some i => simp

/-- C8: `find_uuid_fuzzy` resolves a string that parses as a UUID by
binary search of the (strictly sorted) UUID table, returning the
stored UUID when present and `None` when absent; any other string is
split at its last colon and delegated to `find_uuid`, so a tagged
entry `"name:arch"` stored in the file resolves to the UUID at the
same positional index of the UUID table, an alias present in no
tagged entry resolves to `None`, and a colon-free string that is not
a UUID resolves to `None`. -/
theorem C8_find_uuid_fuzzy_resolution (db : MemDb) :
    (∀ s u l, parseUuid s = some u → db.uuids = Except.ok l →
      List.Pairwise (fun a b => a.uuid < b.uuid) l →
      (∀ i (hi : i < l.length), (l.get ⟨i, hi⟩).uuid = u →
        db.find_uuid_fuzzy s = Except.ok (some u)) ∧
      ((∀ x ∈ l, x.uuid ≠ u) → db.find_uuid_fuzzy s = Except.ok none)) ∧
    (∀ name arch, ¬ (58 : Nat) ∈ arch →
      db.find_uuid_fuzzy (name ++ 58 :: arch) = db.find_uuid name arch) ∧
    (∀ name arch names hdr l, ¬ (58 : Nat) ∈ arch →
      readHeader db.buffer = Except.ok hdr →
      TaggedRegion db.buffer hdr.tagged_object_names_start
        hdr.tagged_object_names_end names →
      db.uuids = Except.ok l →
      (∀ i (hi : i < l.length), firstIdx names (name ++ 58 :: arch) = some i →
        db.find_uuid_fuzzy (name ++ 58 :: arch) =
          Except.ok (some ((l.get ⟨i, hi⟩).uuid))) ∧
      (firstIdx names (name ++ 58 :: arch) = none →
        db.find_uuid_fuzzy (name ++ 58 :: arch) = Except.ok none)) ∧
    (∀ s, parseUuid s = none → ¬ (58 : Nat) ∈ s →
      db.find_uuid_fuzzy s = Except.ok none) := by
  refine ⟨?_, fun name arch h => fuzzy_tagged_delegates db name arch h, ?_, ?_⟩
  · intro s u l hp hu hs
    constructor
    · intro i hi hiu
      obtain ⟨x, hbx, hfx⟩ := binsearch_by_key_found l u IndexedUuid.uuid hs i hi hiu
      rw [fuzzy_uuid_path db s u hp, hu]
      simp [hbx, hfx]
    · intro habs
      have hb : binsearch_by_key l u IndexedUuid.uuid = none :=
        binsearch_by_key_none l u IndexedUuid.uuid habs
      rw [fuzzy_uuid_path db s u hp, hu]
      simp [hb]
  · intro name arch names hdr l harch hh ht hu
    have hdel := fuzzy_tagged_delegates db name arch harch
    have hspec := find_uuid_spec db name arch hdr names l hh ht hu
    constructor
    · intro i hi hf
      rw [hdel, hspec, hf]
      simp [hi]
    · intro hf
      rw [hdel, hspec, hf]
  · intro s hp hs
    unfold MemDb.find_uuid_fuzzy
    rw [hp, lastColonSplit_none s hs]

/-- Witness for C8 on the concrete symdb: the hyphenated form of UUID
5 resolves to 5 through the table search, the stored tagged entry
`"a:arm64"` resolves positionally to UUID 5, and the unknown alias
`"x:y"` resolves to `None`. -/
theorem C8_find_uuid_fuzzy_resolution_witness :
    MemDb.find_uuid_fuzzy exampleMemDb
      [48, 48, 48, 48, 48, 48, 48, 48, 45, 48, 48, 48, 48, 45, 48, 48, 48, 48,
       45, 48, 48, 48, 48, 45, 48, 48, 48, 48, 48, 48, 48, 48, 48, 48, 48, 53] =
      Except.ok (some 5) ∧
    MemDb.find_uuid_fuzzy exampleMemDb [97, 58, 97, 114, 109, 54, 52] =
      Except.ok (some 5) ∧
    MemDb.find_uuid_fuzzy exampleMemDb [120, 58, 121] = Except.ok none := by
  refine ⟨?_, ?_, ?_⟩
  · exact ((C8_find_uuid_fuzzy_resolution exampleMemDb).1 _ 5 [⟨5, 0⟩, ⟨9, 1⟩]
      (by decide) rfl (by decide)).1 0 (by decide) rfl
  · exact ((C8_find_uuid_fuzzy_resolution exampleMemDb).2.2.1 [97]
      [97, 114, 109, 54, 52]
      [[97, 58, 97, 114, 109, 54, 52], [98, 58, 120]]
      (decodeHeader (exampleDb.take HEADER_SIZE))
      [⟨5, 0⟩, ⟨9, 1⟩] (by decide) rfl
      (TaggedRegion.cons 158 170 [97, 58, 97, 114, 109, 54, 52] [[98, 58, 120]]
        (by decide) rfl
        (TaggedRegion.cons 166 170 [98, 58, 120] [] (by decide) rfl
          (TaggedRegion.nil 170 170 (by decide))))
      rfl).1 0 (by decide) rfl
  · exact ((C8_find_uuid_fuzzy_resolution exampleMemDb).2.2.1 [120] [121]
      [[97, 58, 97, 114, 109, 54, 52], [98, 58, 120]]
      (decodeHeader (exampleDb.take HEADER_SIZE))
      [⟨5, 0⟩, ⟨9, 1⟩] (by decide) rfl
      (TaggedRegion.cons 158 170 [97, 58, 97, 114, 109, 54, 52] [[98, 58, 120]]
        (by decide) rfl
        (TaggedRegion.cons 166 170 [98, 58, 120] [] (by decide) rfl
          (TaggedRegion.nil 170 170 (by decide))))
      rfl).2 rfl
